import Mathlib

/-!
Verification development for the SR-IOV DRA driver (SchSeba/dra-driver-sriov).

This file shallowly embeds the parts of the Go source relevant to the frozen
claims: per-claim config resolution, SR-IOV device discovery, the two
prepare/unprepare subsystems (checkpoint-backed `pkg/state` and NRI-integrated
`pkg/devicestate`), the DRA driver hooks, the NRI sandbox hooks and the
checkpoint serialization with its checksum.  Filesystem, Kubernetes-API and
checkpoint-manager effects are made explicit: stateful operations take and
return explicit state values together with a trace of the effects they
performed.  Components of the repository that are not part of the provided
source (pkg/podmanager, pkg/cdi, pkg/consts, the config API package, the
checksum helper library) are modelled from the specification and marked as
such in their doc comments.
-/

namespace SriovDra

/-- Driver name constant. Modelled from the spec: `pkg/consts` is not under
src/; the spec (§4.14) says the driver has a fixed name string, and the demo
manifests use the device class `virtualfunction.sriovnetwork.openshift.io`. -/
def DriverName : String := "virtualfunction.sriovnetwork.openshift.io"

/-- Catalog attributes carried by each allocatable device: the five constant
attribute keys written by `DiscoverSriovDevices` (pkg/devicestate/state.go,
`resourceList[deviceName] = resourceapi.Device{...}`): vendor ID, device ID,
PCI address, parent PF interface name, eswitch mode. -/
structure DeviceAttrs where
  vendorID : String
  deviceID : String
  pciAddress : String
  pfName : String
  eswitchMode : String
deriving Repr, DecidableEq

/-- Go map lookup `m[k]`, on a map modelled as an association list with
unique keys. -/
def assocLookup {β : Type} (m : List (String × β)) (k : String) : Option β :=
  (m.find? (fun e => e.1 = k)).map (·.2)

/-- Go map write `m[k] = v`: overwrite the existing entry if the key is
present (keys are unique in every map the model builds), otherwise append a
fresh entry. -/
def assocInsert {β : Type} : List (String × β) → String → β → List (String × β)
  | [], k, v => [(k, v)]
  | e :: rest, k, v => if e.1 = k then (k, v) :: rest else e :: assocInsert rest k v

/-- Go map delete `delete(m, k)`. -/
def assocRemove {β : Type} (m : List (String × β)) (k : String) : List (String × β) :=
  m.filter (fun e => e.1 ≠ k)

/-- Model of `types.AllocatableDevices` (a Go map from device name to device)
as an association list. -/
abbrev AllocatableDevices := List (String × DeviceAttrs)

/-- Map lookup: `allocatable[deviceName]`. -/
def lookupDevice (m : AllocatableDevices) (k : String) : Option DeviceAttrs :=
  assocLookup m k

/-- Map write `m[k] = v` on the allocatable catalog. -/
def mapInsert (m : AllocatableDevices) (k : String) (v : DeviceAttrs) : AllocatableDevices :=
  assocInsert m k v

/-! ## Per-claim configuration schema (`VfConfig`) -/

/-- The driver's opaque per-claim configuration schema
(`configapi.VfConfig`): a network-attachment-definition name and a target
interface name. The config API package is not under src/; the field set is
taken from the spec (§4.4, §6) and from the uses in
pkg/devicestate/state.go (`vfConfig.NetAttachDefName`, `vfConfig.IfName`). -/
structure VfConfig where
  NetAttachDefName : String
  IfName : String
deriving Repr, DecidableEq

/-- Model of `runtime.Object` as far as the driver's type switch inspects it:
either the driver's own `*configapi.VfConfig` or some other object kind,
which the `switch castConfig := c.(type)` in both prepare paths rejects. -/
inductive RuntimeObject where
  | vf (c : VfConfig)
  | other
deriving Repr, DecidableEq

/-- Modelled from the spec: `configapi.DefaultVfConfig()` is not under src/;
the spec (§4.4) documents a zero-value default instance. -/
def DefaultVfConfig : VfConfig := ⟨"", ""⟩

/-- Modelled from the spec: `VfConfig.Normalize` is not under src/; the spec
(§4.4) says normalization fills implied default fields and names none
concretely, and §6 says `NetAttachDefName` is still required after
normalization, so normalization is modelled as the identity. -/
def normalizeVfConfig (c : VfConfig) : Except String VfConfig := .ok c

/-- Modelled from the spec: `VfConfig.Validate` is not under src/; the spec
(§4.4) says validation rejects a config missing required fields, at minimum
the network-attachment-definition name. -/
def validateVfConfig (c : VfConfig) : Except String Unit :=
  if c.NetAttachDefName = "" then .error "invalid config: missing netAttachDefName"
  else .ok ()

/-- Element of the list returned by `GetOpaqueDeviceConfigs`
(`types.OpaqueDeviceConfig`, pkg/types/types.go): the ordered list of request
names a config applies to, plus the decoded opaque config object. -/
structure OpaqueDeviceConfig where
  Requests : List String
  Config : RuntimeObject
deriving Repr, DecidableEq

/-- Fields of `resourceapi.DeviceRequestAllocationResult` read by the driver:
request name, pool name and device name. -/
structure AllocResult where
  Request : String
  Pool : String
  Device : String
deriving Repr, DecidableEq

/-! ## Config resolution: the backward scan

Both prepare paths run the identical loop (pkg/state/state.go,
`DeviceState.prepareDevices`, and pkg/devicestate/state.go,
`DeviceStateManager.getConfigResultsMap`):

  for _, c := range slices.Backward(configs) {
      if len(c.Requests) == 0 || slices.Contains(c.Requests, result.Request) {
          configResultsMap[c.Config] = append(..., &result)
          break
      }
  }

with the default config inserted at index 0 (lowest precedence) beforehand. -/

/-- The match condition of the scan: a config applies to a request if its
request list is empty or contains the request name. -/
def cfgMatches (c : OpaqueDeviceConfig) (request : String) : Bool :=
  c.Requests.isEmpty || c.Requests.contains request

/-- Index (into `cfgs`) of the config selected for `request` by the backward
scan: the last config in the list that matches, i.e. the first match when
iterating from the most recently added config down to the front. -/
def lastMatchIdx : List OpaqueDeviceConfig → String → Option Nat
  | [], _ => none
  | c :: cs, r =>
    match lastMatchIdx cs r with
    | some i => some (i + 1)
    | none => if cfgMatches c r then some 0 else none

/-- The default catch-all config prepended by both prepare paths:
`types.OpaqueDeviceConfig{Requests: []string{}, Config: configapi.DefaultVfConfig()}`. -/
def defaultConfigEntry : OpaqueDeviceConfig := ⟨[], .vf DefaultVfConfig⟩

/-- `slices.Insert(configs, 0, default)`: the default config at index 0. -/
def withDefaultConfig (configs : List OpaqueDeviceConfig) : List OpaqueDeviceConfig :=
  defaultConfigEntry :: configs

/-- The config-to-results grouping built by `DeviceState.prepareDevices` and
`DeviceStateManager.getConfigResultsMap`: after checking every allocation
result's device against the allocatable catalog, group the results by the
index of the config the backward scan selects for them.  The Go map is keyed
by the config's `runtime.Object` pointer, which is unique per entry of the
config list, so the group key is modelled as the config's index in the
prepended list; configs to which no result is assigned have no map entry. -/
def getConfigResultsMap (alloc : AllocatableDevices) (configs : List OpaqueDeviceConfig)
    (results : List AllocResult) :
    Except String (List ((Nat × OpaqueDeviceConfig) × List AllocResult)) :=
  match results.find? (fun r => (lookupDevice alloc r.Device).isNone) with
  | some r => .error ("requested device is not allocatable: " ++ r.Device)
  | none =>
    let cfgs := withDefaultConfig configs
    .ok ((cfgs.enum.map
      (fun ic => (ic, results.filter (fun r => lastMatchIdx cfgs r.Request = some ic.1)))).filter
        (fun p => !p.2.isEmpty))

/-! ## SR-IOV device discovery (`DiscoverSriovDevices`) -/

/-- Fields of a `ghw.PCIDevice` read by discovery: address, class ID string,
vendor ID and product ID. -/
structure PCIDevice where
  address : String
  classID : String
  vendorID : String
  productID : String
deriving Repr, DecidableEq

/-- `PFInfo` from pkg/devicestate (discovery part). -/
structure PFInfo where
  PciAddress : String
  NetName : String
  VendorID : String
  DeviceID : String
  Address : String
  EswitchMode : String
deriving Repr, DecidableEq

/-- The mockable helper interface used by discovery (`HelpersInterface`),
restricted to the methods `DiscoverSriovDevices` calls after the PCI
enumeration: VF detection, interface-name resolution, eswitch mode and VF
listing. -/
structure Helpers where
  isSriovVF : String → Bool
  tryGetInterfaceName : String → String
  getNicSriovMode : String → String
  getVFList : String → Except String (List String)

/-- Value of a hexadecimal digit, as accepted by Go's `strconv.ParseInt` with
base 16. -/
def hexDigitVal (c : Char) : Option Nat :=
  if '0' ≤ c ∧ c ≤ '9' then some (c.toNat - '0'.toNat)
  else if 'a' ≤ c ∧ c ≤ 'f' then some (c.toNat - 'a'.toNat + 10)
  else if 'A' ≤ c ∧ c ≤ 'F' then some (c.toNat - 'A'.toNat + 10)
  else none

/-- Parse a non-empty run of hex digits into a natural number. -/
def parseHexDigits (cs : List Char) : Option Nat :=
  if cs.isEmpty then none
  else cs.foldlM (fun acc c => (fun d => acc * 16 + d) <$> hexDigitVal c) 0

/-- Model of `strconv.ParseInt(s, 16, 64)`: an optional sign followed by a
non-empty run of hex digits, with the value required to fit in a signed
64-bit integer. -/
def parseInt16 (s : String) : Option Int :=
  match s.data with
  | '+' :: rest => (parseHexDigits rest).bind
      (fun n => if n ≤ 2 ^ 63 - 1 then some (Int.ofNat n) else none)
  | '-' :: rest => (parseHexDigits rest).bind
      (fun n => if n ≤ 2 ^ 63 then some (-(Int.ofNat n)) else none)
  | cs => (parseHexDigits cs).bind
      (fun n => if n ≤ 2 ^ 63 - 1 then some (Int.ofNat n) else none)

/-- The network device class constant `NetClass = 0x02`. -/
def NetClass : Int := 2

/-- The per-device body of the first discovery loop: parse the class (skip on
failure), keep only network-class devices, skip VFs, skip devices without a
resolvable interface name, and otherwise record a `PFInfo`. -/
def keepPF (h : Helpers) (d : PCIDevice) : Option PFInfo :=
  match parseInt16 d.classID with
  | none => none
  | some c =>
    if c ≠ NetClass then none
    else if h.isSriovVF d.address then none
    else
      let name := h.tryGetInterfaceName d.address
      if name = "" then none
      else some ⟨d.address, name, d.vendorID, d.productID, d.address, h.getNicSriovMode d.address⟩

/-- The PF list accumulated by the first discovery loop. -/
def buildPFList (h : Helpers) (devices : List PCIDevice) : List PFInfo :=
  devices.filterMap (keepPF h)

/-- The catalog key of a VF: its PCI address with every `:` and `.` replaced
by `-` (the two `strings.ReplaceAll` calls in the second discovery loop). -/
def vfDeviceName (pciAddress : String) : String :=
  String.mk (pciAddress.data.map (fun c => if c = ':' || c = '.' then '-' else c))

/-- The catalog entry emitted for one VF: the parent PF's vendor ID, device
ID, interface name and eswitch mode, and the VF's own PCI address. -/
def vfDeviceAttrs (pf : PFInfo) (vfPciAddress : String) : DeviceAttrs :=
  ⟨pf.VendorID, pf.DeviceID, vfPciAddress, pf.NetName, pf.EswitchMode⟩

/-- Inner loop of the second discovery phase: insert one catalog entry per VF
of a PF. -/
def addVFEntries (pf : PFInfo) (vfs : List String) (m : AllocatableDevices) : AllocatableDevices :=
  vfs.foldl (fun m vf => mapInsert m (vfDeviceName vf) (vfDeviceAttrs pf vf)) m

/-- The second discovery loop: for each PF, list its VFs (returning an error
and aborting the whole discovery on a listing failure) and insert one catalog
entry per VF. -/
def discoverFold (h : Helpers) : List PFInfo → AllocatableDevices →
    Except String AllocatableDevices
  | [], m => .ok m
  | pf :: rest, m =>
    match h.getVFList pf.Address with
    | .error e => .error ("error getting VF list: " ++ e)
    | .ok vfs => discoverFold h rest (addVFEntries pf vfs m)

/-- `DiscoverSriovDevices` (pkg/devicestate/state.go): abort if PCI
enumeration fails or finds zero devices; build the PF list with the skip
rules of `keepPF`; then run the VF loop over the discovered PFs. -/
def DiscoverSriovDevices (h : Helpers) (pciInfo : Except String (List PCIDevice)) :
    Except String AllocatableDevices :=
  match pciInfo with
  | .error e => .error ("error getting PCI info: " ++ e)
  | .ok devices =>
    if devices.isEmpty then .error "could not retrieve PCI devices"
    else discoverFold h (buildPFList h devices) []

/-- The flat list of catalog entries discovery produces when every VF listing
succeeds: one entry per VF symlink of each discovered PF, in order. -/
def allVFEntries (h : Helpers) (devices : List PCIDevice) : AllocatableDevices :=
  (buildPFList h devices).flatMap (fun pf =>
    (match h.getVFList pf.Address with
     | .ok vfs => vfs
     | .error _ => []).map (fun vf => (vfDeviceName vf, vfDeviceAttrs pf vf)))

/-- Error test for `Except`. -/
def isErr : Except String α → Bool
  | .error _ => true
  | .ok _ => false

/-! ## Claims and prepared devices -/

/-- Fields of `resourceapi.ResourceClaimConsumerReference` used by the
driver: the reserving pod's UID and name (`claim.Status.ReservedFor`). -/
structure PodReference where
  UID : String
  Name : String
deriving Repr, DecidableEq

/-- Modelled from the spec: the shape consumed by `GetOpaqueDeviceConfigs`
(the function itself is not under src/): one entry of
`claim.Status.Allocation.Devices.Config`, carrying the request names it
applies to, the owning driver name, and the outcome of decoding its opaque
payload (decoding an unrecognized kind is an error, spec §4.4). -/
structure RawDeviceConfig where
  Requests : List String
  Driver : String
  DecodedPayload : Except String RuntimeObject
deriving Repr

/-- Modelled from the spec: `GetOpaqueDeviceConfigs` (shared by both prepare
paths, not under src/) gathers, in order, the configs tagged for the given
driver name, propagating any decode error (spec §4.4, §4.7). -/
def GetOpaqueDeviceConfigs (driverName : String) (entries : List RawDeviceConfig) :
    Except String (List OpaqueDeviceConfig) :=
  entries.foldlM (fun acc e =>
    if e.Driver = driverName then
      match e.DecodedPayload with
      | .ok o => .ok (acc ++ [⟨e.Requests, o⟩])
      | .error m => .error m
    else .ok acc) []

/-- The parts of `claim.Status.Allocation` the driver reads: the allocation
results and the device config list. -/
structure Allocation where
  Results : List AllocResult
  Config : List RawDeviceConfig
deriving Repr

/-- The parts of a `resourceapi.ResourceClaim` the driver reads. -/
structure Claim where
  Name : String
  Namespace : String
  UID : String
  Allocation : Option Allocation
  ReservedFor : List PodReference
deriving Repr

/-- Fields of `drapbv1.Device` populated by both prepare paths. -/
structure DraDevice where
  RequestNames : List String
  PoolName : String
  DeviceName : String
  CDIDeviceIDs : List String
deriving Repr, DecidableEq

/-- Legacy `types.PreparedDevice`: the `drapbv1.Device` plus its CDI
container edits (of which the driver only populates the `Env` list). -/
structure PreparedDevice where
  Device : DraDevice
  ContainerEditsEnv : List String
deriving Repr, DecidableEq

/-- Legacy `types.PreparedDevices`. -/
abbrev PreparedDevices := List PreparedDevice

/-- Legacy `types.PreparedClaims` (claim UID to prepared devices). -/
abbrev PreparedClaims := List (String × PreparedDevices)

/-- `PreparedDevices.GetDevices` (pkg/types/types.go). -/
def GetDevices (pds : PreparedDevices) : List DraDevice := pds.map (·.Device)

/-- Modelled from the spec: `cdi.GetClaimDevices` (pkg/cdi is not under src/)
computes the fully-qualified CDI device identifiers for a claim UID and a
list of device names (spec §4.6). -/
def GetClaimDevices (claimUID : String) (devices : List String) : List String :=
  devices.map (fun d => "k8s." ++ DriverName ++ "/claim=" ++ claimUID ++ "-" ++ d)

/-- The `switch castConfig := c.(type)` in both prepare paths: accept only
the driver's own `VfConfig`. -/
def castVfConfig : RuntimeObject → Except String VfConfig
  | .vf c => .ok c
  | .other => .error "runtime object is not a regognized configuration"

/-! ## Legacy (checkpoint-backed) device state: `pkg/state` -/

/-- The loop of `DeviceState.applyConfig` (pkg/state/state.go): for each
allocation result, look its device up in the catalog and record the single
environment variable `VF_DEVICE_<deviceName>=<pciAddress>`, keyed by device
name. -/
def applyConfigLegacyLoop (alloc : AllocatableDevices) :
    List AllocResult → List (String × List String) →
    Except String (List (String × List String))
  | [], m => .ok m
  | r :: rest, m =>
    match lookupDevice alloc r.Device with
    | none => .error ("device " ++ r.Device ++ " not found in allocatable devices")
    | some info =>
      applyConfigLegacyLoop alloc rest
        (assocInsert m r.Device ["VF_DEVICE_" ++ r.Device ++ "=" ++ info.pciAddress])

/-- `DeviceState.applyConfig` (pkg/state/state.go). -/
def applyConfigLegacy (alloc : AllocatableDevices) (_config : VfConfig)
    (results : List AllocResult) : Except String (List (String × List String)) :=
  applyConfigLegacyLoop alloc results []

/-- The per-device environment-variable list the legacy `applyConfig`
records for a device found in the catalog. -/
def legacyEnvList (alloc : AllocatableDevices) (d : String) : List String :=
  match lookupDevice alloc d with
  | some info => ["VF_DEVICE_" ++ d ++ "=" ++ info.pciAddress]
  | none => []

/-- The per-config loop of `DeviceState.prepareDevices`: cast, normalize,
validate, apply, and merge the per-device container edits. -/
def processConfigsLegacy (alloc : AllocatableDevices)
    (cfgMap : List ((Nat × OpaqueDeviceConfig) × List AllocResult)) :
    Except String (List (String × List String)) :=
  cfgMap.foldlM (fun acc p => do
    let config ← castVfConfig p.1.2.Config
    let config ← match normalizeVfConfig config with
      | .error e => .error ("error normalizing Vf config: " ++ e)
      | .ok c => pure c
    let _ ← match validateVfConfig config with
      | .error e => .error ("error validating Vf config: " ++ e)
      | .ok u => pure u
    let edits ← match applyConfigLegacy alloc config p.2 with
      | .error e => .error ("error applying Vf config: " ++ e)
      | .ok o => pure o
    .ok (edits.foldl (fun m kv => assocInsert m kv.1 kv.2) acc)) []

/-- The construction loop of `DeviceState.prepareDevices`: one
`PreparedDevice` per allocation result, with its request name, pool, device
name, CDI device IDs and the container edits computed for its device. -/
def buildPreparedLegacy (claimUID : String) (edits : List (String × List String))
    (cfgMap : List ((Nat × OpaqueDeviceConfig) × List AllocResult)) : PreparedDevices :=
  cfgMap.flatMap (fun p => p.2.map (fun r =>
    { Device := ⟨[r.Request], r.Pool, r.Device, GetClaimDevices claimUID [r.Device]⟩,
      ContainerEditsEnv := (assocLookup edits r.Device).getD [] }))

/-- `DeviceState.prepareDevices` (pkg/state/state.go). -/
def prepareDevicesLegacy (alloc : AllocatableDevices) (claim : Claim) :
    Except String PreparedDevices :=
  match claim.Allocation with
  | none => .error "claim not yet allocated"
  | some allocation => do
    let configs ← match GetOpaqueDeviceConfigs DriverName allocation.Config with
      | .error e => .error ("error getting opaque device configs: " ++ e)
      | .ok cs => pure cs
    let cfgMap ← getConfigResultsMap alloc configs allocation.Results
    let edits ← processConfigsLegacy alloc cfgMap
    .ok (buildPreparedLegacy claim.UID edits cfgMap)

/-- The on-disk state owned by the legacy subsystem: the checkpoint file's
`PreparedClaims` payload and the per-claim CDI spec files. -/
structure NodeState where
  checkpointClaims : PreparedClaims
  cdiSpecFiles : List (String × PreparedDevices)
deriving Repr

/-- Filesystem effects performed by the legacy prepare/unprepare paths. -/
inductive FsEffect where
  | cdiSpecWrite (claimUID : String)
  | cdiSpecDelete (claimUID : String)
  | checkpointWrite
deriving Repr, DecidableEq

/-- `DeviceState.Prepare` (pkg/state/state.go): reload the checkpoint; the
already-prepared guard is `preparedClaims[claimUID] != nil`, which holds
exactly when the stored device list is non-nil — here non-empty, since the
only stored lists come from `prepareDevices`, which returns Go's nil slice
precisely for a zero-result claim.  On a hit return the stored devices with
no writes; otherwise — including a claim UID whose stored list is nil —
prepare, write the claim's CDI spec file, record the claim in the checkpoint
and persist it. -/
def DeviceStatePrepare (alloc : AllocatableDevices) (st : NodeState) (claim : Claim) :
    Except String (List DraDevice) × NodeState × List FsEffect :=
  match assocLookup st.checkpointClaims claim.UID with
  | some (d :: rest) => (.ok (GetDevices (d :: rest)), st, [])
  | _ =>
    match prepareDevicesLegacy alloc claim with
    | .error e => (.error ("prepare failed: " ++ e), st, [])
    | .ok pds =>
      (.ok (GetDevices pds),
       { checkpointClaims := assocInsert st.checkpointClaims claim.UID pds,
         cdiSpecFiles := assocInsert st.cdiSpecFiles claim.UID pds },
       [.cdiSpecWrite claim.UID, .checkpointWrite])

/-- `DeviceState.Unprepare` (pkg/state/state.go): reload the checkpoint; the
unknown-claim guard is `preparedClaims[claimUID] == nil`, which holds both
for an absent claim UID and for one whose stored device list is nil (empty);
in either case, no-op success.  Otherwise run the (no-op) device teardown,
delete the claim's CDI spec file, remove the claim from the checkpoint and
persist it. -/
def DeviceStateUnprepare (st : NodeState) (claimUID : String) :
    Except String Unit × NodeState × List FsEffect :=
  match assocLookup st.checkpointClaims claimUID with
  | some (_ :: _) =>
    (.ok (),
     { checkpointClaims := assocRemove st.checkpointClaims claimUID,
       cdiSpecFiles := assocRemove st.cdiSpecFiles claimUID },
     [.cdiSpecDelete claimUID, .checkpointWrite])
  | _ => (.ok (), st, [])

/-! ## NRI-integrated device state: `pkg/devicestate` -/

/-- Outcome of running a piece of Go code that may return a value, return an
error, or hit a runtime panic (such as an out-of-bounds slice index). -/
inductive ExecResult (α : Type) where
  | ok (a : α)
  | err (e : String)
  | goPanic (msg : String)
deriving Repr, DecidableEq

/-- `types.PreparedDevice` of the NRI-integrated subsystem: claim and pod
identity, device identity with CDI IDs, container edits, the derived network
config and interface name, plus the sandbox fields filled in by the NRI
hooks. -/
structure PreparedDeviceNRI where
  ClaimName : String
  ClaimNamespace : String
  ClaimUID : String
  PodUID : String
  PodName : String
  PodNamespace : String
  Device : DraDevice
  ContainerEditsEnv : List String
  NetAttachDefConfig : String
  IfName : String
  PodNetworkNamespace : String := ""
  PodSandboxID : String := ""
deriving Repr, DecidableEq

abbrev PreparedDevicesNRI := List PreparedDeviceNRI

/-- The environment-variable device name used by the NRI-integrated
`applyConfig`: the device name with every `-` replaced by `_`
(`strings.ReplaceAll(deviceRequestAllocation.Device, "-", "_")`). -/
def envDeviceName (device : String) : String :=
  String.mk (device.data.map (fun c => if c = '-' then '_' else c))

/-- Modelled from the spec: `types.AddDeviceIDToNetConf` is not under src/;
the spec (§4.9) says it converts the net-attach-def CNI config text into an
SR-IOV-CNI-compatible form by injecting the device's PCI address as a
`deviceID` field. -/
def AddDeviceIDToNetConf (config pciAddress : String) : Except String String :=
  .ok (config ++ "+deviceID=" ++ pciAddress)

/-- The Kubernetes API read the NRI-integrated `applyConfig` performs:
fetching a network-attachment-definition's `Spec.Config` by name and
namespace. The outcome is an input of the model. -/
structure K8sEnv where
  getNetAttachDef : String → String → Except String String

/-- `DeviceStateManager.applyConfig` (pkg/devicestate/state.go): per
allocation result, record the two environment variables
(`VF_DEVICE_<name with dashes replaced>=<pciAddress>` and
`NET_ATTACH_DEF_NAME=<NetAttachDefName>`), fetch the referenced
net-attach-def, derive the SR-IOV CNI config with the device's PCI address,
and record the target interface name. -/
def applyConfigNRILoop (env : K8sEnv) (alloc : AllocatableDevices) (ns : String)
    (vfConfig : VfConfig) :
    List AllocResult →
    (List (String × List String) × List (String × String) × List (String × String)) →
    Except String (List (String × List String) × List (String × String) × List (String × String))
  | [], acc => .ok acc
  | r :: rest, acc =>
    match lookupDevice alloc r.Device with
    | none => .error ("device " ++ r.Device ++ " not found in allocatable devices")
    | some info =>
      match env.getNetAttachDef vfConfig.NetAttachDefName ns with
      | .error e =>
        .error ("error getting net attach def for net attach def " ++
          vfConfig.NetAttachDefName ++ ": " ++ e)
      | .ok nadConfig =>
        match AddDeviceIDToNetConf nadConfig info.pciAddress with
        | .error e =>
          .error ("error converting net attach def config to sriov-cni format: " ++ e)
        | .ok netConf =>
          applyConfigNRILoop env alloc ns vfConfig rest
            (assocInsert acc.1 r.Device
              ["VF_DEVICE_" ++ envDeviceName r.Device ++ "=" ++ info.pciAddress,
               "NET_ATTACH_DEF_NAME=" ++ vfConfig.NetAttachDefName],
             assocInsert acc.2.1 r.Device netConf,
             assocInsert acc.2.2 r.Device vfConfig.IfName)

def applyConfigNRI (env : K8sEnv) (alloc : AllocatableDevices) (ns : String)
    (vfConfig : VfConfig) (results : List AllocResult) :
    Except String (List (String × List String) × List (String × String) × List (String × String)) :=
  applyConfigNRILoop env alloc ns vfConfig results ([], [], [])

/-- The per-device environment-variable list the NRI-integrated
`applyConfig` records for a device found in the catalog: the device name
with dashes replaced by underscores, plus the net-attach-def name. -/
def nriEnvList (alloc : AllocatableDevices) (vfConfig : VfConfig) (d : String) : List String :=
  match lookupDevice alloc d with
  | some info =>
    ["VF_DEVICE_" ++ envDeviceName d ++ "=" ++ info.pciAddress,
     "NET_ATTACH_DEF_NAME=" ++ vfConfig.NetAttachDefName]
  | none => []

/-- The per-config loop of `DeviceStateManager.prepareDevices`: cast,
normalize, validate, apply, and merge the three per-device maps. -/
def processConfigsNRI (env : K8sEnv) (alloc : AllocatableDevices) (ns : String)
    (cfgMap : List ((Nat × OpaqueDeviceConfig) × List AllocResult)) :
    Except String (List (String × List String) × List (String × String) × List (String × String)) :=
  cfgMap.foldlM (fun acc p => do
    let config ← castVfConfig p.1.2.Config
    let config ← match normalizeVfConfig config with
      | .error e => .error ("error normalizing Vf config: " ++ e)
      | .ok c => pure c
    let _ ← match validateVfConfig config with
      | .error e => .error ("error validating Vf config: " ++ e)
      | .ok u => pure u
    let (edits, netconfs, ifnames) ← match applyConfigNRI env alloc ns config p.2 with
      | .error e => .error ("error applying Vf config: " ++ e)
      | .ok o => pure o
    .ok (edits.foldl (fun m kv => assocInsert m kv.1 kv.2) acc.1,
         netconfs.foldl (fun m kv => assocInsert m kv.1 kv.2) acc.2.1,
         ifnames.foldl (fun m kv => assocInsert m kv.1 kv.2) acc.2.2))
    ([], [], [])

/-- The construction loop of `DeviceStateManager.prepareDevices`: one
`PreparedDevice` per allocation result.  Each constructed device reads
`claim.Status.ReservedFor[0]` with no length check: when at least one device
is built and `ReservedFor` is empty, the index access is out of bounds and
the Go code panics. -/
def buildPreparedNRI (claim : Claim) (edits : List (String × List String))
    (netconfs ifnames : List (String × String))
    (cfgMap : List ((Nat × OpaqueDeviceConfig) × List AllocResult)) :
    ExecResult PreparedDevicesNRI :=
  match cfgMap.flatMap (·.2) with
  | [] => .ok []
  | allResults =>
    match claim.ReservedFor with
    | [] => .goPanic "runtime error: index out of range [0] with length 0"
    | pod0 :: _ =>
      .ok (allResults.map (fun r =>
        { ClaimName := claim.Name, ClaimNamespace := claim.Namespace, ClaimUID := claim.UID,
          PodUID := pod0.UID, PodName := pod0.Name, PodNamespace := claim.Namespace,
          Device := ⟨[r.Request], r.Pool, r.Device, GetClaimDevices claim.UID [r.Device]⟩,
          ContainerEditsEnv := (assocLookup edits r.Device).getD [],
          NetAttachDefConfig := (assocLookup netconfs r.Device).getD "",
          IfName := (assocLookup ifnames r.Device).getD "" }))

/-- `DeviceStateManager.prepareDevices` (pkg/devicestate/state.go). -/
def prepareDevicesNRI (env : K8sEnv) (alloc : AllocatableDevices) (claim : Claim) :
    ExecResult PreparedDevicesNRI :=
  match claim.Allocation with
  | none => .err "claim not yet allocated"
  | some allocation =>
    match GetOpaqueDeviceConfigs DriverName allocation.Config with
    | .error e => .err ("error getting opaque device configs: " ++ e)
    | .ok configs =>
      match getConfigResultsMap alloc configs allocation.Results with
      | .error e => .err ("error getting config results map: " ++ e)
      | .ok cfgMap =>
        match processConfigsNRI env alloc claim.Namespace cfgMap with
        | .error e => .err e
        | .ok (edits, netconfs, ifnames) =>
          buildPreparedNRI claim edits netconfs ifnames cfgMap

/-- Effects of the NRI-integrated manager and the driver hooks that wrap
it. -/
inductive DrvEffect where
  | dsmPrepare (claimUID : String)
  | dsmUnprepare (claimUID : String)
  | cdiSpecWrite (claimUID : String)
  | cdiSpecDelete (claimUID : String)
deriving Repr, DecidableEq

/-- `DeviceStateManager.PrepareDevices` (pkg/devicestate/state.go): prepare,
fail with `NoPreparedDevices` on an empty list, and write the claim's CDI
spec file on success. -/
def DSMPrepareDevices (env : K8sEnv) (alloc : AllocatableDevices) (claim : Claim) :
    ExecResult PreparedDevicesNRI × List DrvEffect :=
  match prepareDevicesNRI env alloc claim with
  | .err e => (.err ("prepare failed: " ++ e), [])
  | .goPanic m => (.goPanic m, [])
  | .ok pds =>
    if pds.isEmpty then (.err "no prepared devices found for claim", [])
    else (.ok pds, [.cdiSpecWrite claim.UID])

/-- `DeviceStateManager.Unprepare` (pkg/devicestate/state.go): the per-device
teardown is a no-op; delete the claim's CDI spec file. -/
def DSMUnprepare (claimUID : String) (_preparedDevices : PreparedDevicesNRI) :
    Except String Unit × List DrvEffect :=
  (.ok (), [.cdiSpecDelete claimUID])

/-! ## Pod manager

Modelled from the spec: `pkg/podmanager` is not under src/.  The spec (§4.8)
describes an in-memory index from (pod UID, claim UID) to prepared devices
with `Get`, `Set`, `GetByClaim`, `DeleteClaim` and `GetDevicesByPodUID`. -/

/-- Modelled from the spec: the pod manager's index. -/
structure PodManager where
  entries : List ((String × String) × PreparedDevicesNRI)
deriving Repr

/-- Modelled from the spec: `PodManager.Get(podUID, claimUID)`. -/
def pmGet (pm : PodManager) (podUID claimUID : String) : Option PreparedDevicesNRI :=
  (pm.entries.find? (fun e => e.1.1 = podUID ∧ e.1.2 = claimUID)).map (·.2)

/-- Modelled from the spec: `PodManager.Set(podUID, claimUID, devices)`,
erroring on a malformed (empty) pod or claim identity. -/
def pmSet (pm : PodManager) (podUID claimUID : String) (devices : PreparedDevicesNRI) :
    Except String PodManager :=
  if podUID = "" ∨ claimUID = "" then .error "malformed pod or claim identity"
  else .ok ⟨((pm.entries.filter (fun e => !(e.1.1 = podUID ∧ e.1.2 = claimUID))) ++
    [((podUID, claimUID), devices)])⟩

/-- Modelled from the spec: `PodManager.GetByClaim(claim)` scans across pods
for an entry with the given claim UID. -/
def pmGetByClaim (pm : PodManager) (claimUID : String) : Option PreparedDevicesNRI :=
  (pm.entries.find? (fun e => e.1.2 = claimUID)).map (·.2)

/-- Modelled from the spec: `PodManager.DeleteClaim(claim)` removes the
entries with the given claim UID. -/
def pmDeleteClaim (pm : PodManager) (claimUID : String) : Except String PodManager :=
  .ok ⟨pm.entries.filter (fun e => e.1.2 ≠ claimUID)⟩

/-- Modelled from the spec: `PodManager.GetDevicesByPodUID(podUID)` returns
all devices prepared for any claim reserved by that pod, with a found flag. -/
def pmGetDevicesByPodUID (pm : PodManager) (podUID : String) : PreparedDevicesNRI × Bool :=
  ((pm.entries.filter (fun e => e.1.1 = podUID)).flatMap (·.2),
   pm.entries.any (fun e => e.1.1 = podUID))

/-! ## Driver DRA hooks: `pkg/driver/dra_hook.go` -/

/-- `kubeletplugin.Device`: the orchestrator device-result shape. -/
structure KDevice where
  Requests : List String
  PoolName : String
  DeviceName : String
  CDIDeviceIDs : List String
deriving Repr, DecidableEq

/-- The conversion both branches of `Driver.prepareResourceClaim` perform
from a `PreparedDevice` to a `kubeletplugin.Device`. -/
def convertDevices (pds : PreparedDevicesNRI) : List KDevice :=
  pds.map (fun pd =>
    ⟨pd.Device.RequestNames, pd.Device.PoolName, pd.Device.DeviceName, pd.Device.CDIDeviceIDs⟩)

/-- The `NoPodInfo` per-claim error message of `Driver.prepareResourceClaim`. -/
def noPodInfoMsg (claim : Claim) : String :=
  "no pod info found for claim " ++ claim.Namespace ++ "/" ++ claim.Name ++ "/" ++ claim.UID

/-- The `MultiplePodsUnsupported` per-claim error message of
`Driver.prepareResourceClaim`. -/
def multiplePodsMsg (claim : Claim) : String :=
  "multiple pods found for claim " ++ claim.Namespace ++ "/" ++ claim.Name ++ "/" ++
    claim.UID ++ " not supported"

/-- `Driver.prepareResourceClaim` (pkg/driver/dra_hook.go): reject a claim
with zero or more than one reserving pod before touching any state; return
the pod manager's devices unchanged when the (pod, claim) pair is already
recorded; otherwise delegate to the device-state manager, convert the
prepared devices and record them in the pod manager. -/
def prepareResourceClaim (env : K8sEnv) (alloc : AllocatableDevices) (pm : PodManager)
    (claim : Claim) : ExecResult (List KDevice) × PodManager × List DrvEffect :=
  if claim.ReservedFor.length = 0 then (.err (noPodInfoMsg claim), pm, [])
  else if claim.ReservedFor.length > 1 then (.err (multiplePodsMsg claim), pm, [])
  else
    let pod0 := claim.ReservedFor.headD ⟨"", ""⟩
    match pmGet pm pod0.UID claim.UID with
    | some pds => (.ok (convertDevices pds), pm, [])
    | none =>
      match DSMPrepareDevices env alloc claim with
      | (.err e, effs) =>
        (.err ("error preparing devices for claim " ++ claim.UID ++ ": " ++ e), pm,
         .dsmPrepare claim.UID :: effs)
      | (.goPanic m, effs) => (.goPanic m, pm, .dsmPrepare claim.UID :: effs)
      | (.ok pds, effs) =>
        match pmSet pm pod0.UID claim.UID pds with
        | .error e =>
          (.err ("error setting prepared devices for pod " ++ pod0.UID ++
            " into pod manager: " ++ e), pm, .dsmPrepare claim.UID :: effs)
        | .ok pm' => (.ok (convertDevices pds), pm', .dsmPrepare claim.UID :: effs)

/-- The per-claim loop of `Driver.PrepareResourceClaims`: process the claims
in order, threading the pod manager state, accumulating effects and filling
the result map (`result[claim.UID] = ...`, so for a duplicate UID the later
write wins).  A Go panic in one claim aborts the whole call. -/
def prepareClaimsLoop (env : K8sEnv) (alloc : AllocatableDevices) (pm : PodManager) :
    List Claim →
    ExecResult (List (String × ExecResult (List KDevice)) × PodManager × List DrvEffect)
  | [] => .ok ([], pm, [])
  | claim :: rest =>
    match prepareResourceClaim env alloc pm claim with
    | (.goPanic m, _, _) => .goPanic m
    | (res, pm', effs) =>
      match prepareClaimsLoop env alloc pm' rest with
      | .goPanic m => .goPanic m
      | .err e => .err e
      | .ok (resMap, pmF, effsF) =>
        .ok ((if (resMap.find? (fun e => e.1 = claim.UID)).isSome then resMap
              else (claim.UID, res) :: resMap),
             pmF, effs ++ effsF)

/-- `Driver.PrepareResourceClaims` (pkg/driver/dra_hook.go): one result per
claim; the function-level error return is always nil. -/
def PrepareResourceClaims (env : K8sEnv) (alloc : AllocatableDevices) (pm : PodManager)
    (claims : List Claim) :
    ExecResult ((List (String × ExecResult (List KDevice)) × PodManager × List DrvEffect) ×
      Option String) :=
  match prepareClaimsLoop env alloc pm claims with
  | .ok out => .ok (out, none)
  | .err e => .err e
  | .goPanic m => .goPanic m

/-- `Driver.unprepareResourceClaim` (pkg/driver/dra_hook.go): look the claim
up in the pod manager; if absent, success with no further calls; otherwise
delegate to the device-state manager's unprepare and delete the claim from
the pod manager. -/
def unprepareResourceClaimDrv (pm : PodManager) (claimUID : String) :
    Option String × PodManager × List DrvEffect :=
  match pmGetByClaim pm claimUID with
  | none => (none, pm, [])
  | some pds =>
    match DSMUnprepare claimUID pds with
    | (.error e, effs) =>
      (some ("error unpreparing devices for claim " ++ claimUID ++ ": " ++ e), pm,
       .dsmUnprepare claimUID :: effs)
    | (.ok _, effs) =>
      match pmDeleteClaim pm claimUID with
      | .error e =>
        (some ("error deleting claim " ++ claimUID ++ " from pod manager: " ++ e), pm,
         .dsmUnprepare claimUID :: effs)
      | .ok pm' => (none, pm', .dsmUnprepare claimUID :: effs)

/-! ## NRI sandbox hooks: `pkg/nri/nri.go` -/

/-- Fields of an NRI `api.PodSandbox` read by the hooks: pod identity,
sandbox ID and the declared Linux namespaces. -/
structure Sandbox where
  Uid : String
  Name : String
  Ns : String
  Id : String
  LinuxNamespaces : List (String × String)
deriving Repr, DecidableEq

/-- Modelled from the spec: `getNetworkNamespace` is referenced by
pkg/nri/nri.go but not under src/; the spec (§4.11) says it resolves the
pod's network namespace path from the sandbox's declared Linux namespaces,
looking for the network-namespace entry, with the empty string meaning no
namespace was found. -/
def getNetworkNamespace (pod : Sandbox) : String :=
  match pod.LinuxNamespaces.find? (fun e => e.1 = "network") with
  | some e => e.2
  | none => ""

/-- Outcomes of the CNI attach/detach calls the hooks make; the outcomes are
inputs of the model. -/
structure CNIEnv where
  attach : PreparedDeviceNRI → Except String Unit
  detach : PreparedDeviceNRI → Except String Unit

/-- CNI plugin invocations performed by the hooks. -/
inductive CNIEffect where
  | addCall (deviceName : String)
  | delCall (deviceName : String)
deriving Repr, DecidableEq

/-- The attach loop of `Plugin.RunPodSandbox`: set each device's sandbox
fields, attach, and abort on the first failure. -/
def attachLoop (env : CNIEnv) (netns sandboxId : String) :
    PreparedDevicesNRI → Option String × List CNIEffect
  | [] => (none, [])
  | d :: rest =>
    let d' := { d with PodNetworkNamespace := netns, PodSandboxID := sandboxId }
    match env.attach d' with
    | .error e => (some ("failed to attach network: " ++ e), [.addCall d.Device.DeviceName])
    | .ok _ =>
      let (r, effs) := attachLoop env netns sandboxId rest
      (r, .addCall d.Device.DeviceName :: effs)

/-- The detach loop of `Plugin.StopPodSandbox`. -/
def detachLoop (env : CNIEnv) (netns sandboxId : String) :
    PreparedDevicesNRI → Option String × List CNIEffect
  | [] => (none, [])
  | d :: rest =>
    let d' := { d with PodNetworkNamespace := netns, PodSandboxID := sandboxId }
    match env.detach d' with
    | .error e =>
      (some ("error CNI.DetachNetwork for pod: " ++ e), [.delCall d.Device.DeviceName])
    | .ok _ =>
      let (r, effs) := detachLoop env netns sandboxId rest
      (r, .delCall d.Device.DeviceName :: effs)

/-- `Plugin.RunPodSandbox` (pkg/nri/nri.go): no prepared devices is a no-op;
no resolvable network namespace is a logged no-op; otherwise attach each
device, aborting on the first failure. -/
def RunPodSandbox (env : CNIEnv) (pm : PodManager) (pod : Sandbox) :
    Option String × List CNIEffect :=
  let found := pmGetDevicesByPodUID pm pod.Uid
  if !found.2 then (none, [])
  else
    let netns := getNetworkNamespace pod
    if netns = "" then (none, [])
    else attachLoop env netns pod.Id found.1

/-- `Plugin.StopPodSandbox` (pkg/nri/nri.go): no prepared devices is a
no-op; no resolvable network namespace is an error; otherwise detach each
device, aborting on the first failure. -/
def StopPodSandbox (env : CNIEnv) (pm : PodManager) (pod : Sandbox) :
    Option String × List CNIEffect :=
  let found := pmGetDevicesByPodUID pm pod.Uid
  if !found.2 then (none, [])
  else
    let netns := getNetworkNamespace pod
    if netns = "" then
      (some ("error getting network namespace for pod '" ++ pod.Name ++ "' in namespace '" ++
        pod.Ns ++ "'"), [])
    else detachLoop env netns pod.Id found.1

/-! ## Checkpoint serialization: `pkg/checkpoint`

`Checkpoint` is serialized by `json.Marshal` as
`\x7b"checksum":<number>,"v1":<V1>\x7d`; marshalling zeroes the checksum
field, computes the checksum over that encoding, then re-encodes with the
checksum populated; verification re-runs the zero-checksum encoding and
compares, restoring the stored checksum afterwards.  The JSON encoder is
modelled below (Go's `encoding/json` with its default HTML escaping and
sorted map keys); bytes of the encoding are modelled as character codes
(the encodings at play are ASCII).  The checksum helper
(`k8s.io/kubernetes/.../checksum`, a vendored external dependency, spec §4.5)
is modelled as 32-bit FNV-1a over the encoded form. -/

/-- Lower-case hex digit. -/
def hexDigitLower (n : Nat) : Char :=
  if n < 10 then Char.ofNat ('0'.toNat + n) else Char.ofNat ('a'.toNat + (n - 10))

/-- Go `encoding/json` escaping of one character inside a string literal
(default escaper: quote, backslash, control characters, and the HTML
characters and line separators it always escapes). -/
def escapeChar (c : Char) : String :=
  if c = '"' then "\\\""
  else if c = '\\' then "\\\\"
  else if c = '\n' then "\\n"
  else if c = '\r' then "\\r"
  else if c = '\t' then "\\t"
  else if c.toNat < 32 ∨ c = '<' ∨ c = '>' ∨ c = '&' then
    "\\u00" ++ String.mk [hexDigitLower (c.toNat / 16), hexDigitLower (c.toNat % 16)]
  else if c.toNat = 0x2028 ∨ c.toNat = 0x2029 then
    "\\u202" ++ String.mk [hexDigitLower (c.toNat % 16)]
  else String.mk [c]

/-- JSON string literal. -/
def encodeJsonString (s : String) : String :=
  "\"" ++ String.join (s.data.map escapeChar) ++ "\""

/-- JSON array of strings (emptiness modelled as `[]`). -/
def encodeJsonStrArray (l : List String) : String :=
  "[" ++ String.intercalate "," (l.map encodeJsonString) ++ "]"

/-- JSON encoding of one legacy `types.PreparedDevice`: the embedded
`drapbv1.Device` is flattened into the object, followed by the
`ContainerEdits` field; the field names of the two external types are
modelled. -/
def encodePreparedDevice (pd : PreparedDevice) : String :=
  "\x7b\"request_names\":" ++ encodeJsonStrArray pd.Device.RequestNames ++
  ",\"pool_name\":" ++ encodeJsonString pd.Device.PoolName ++
  ",\"device_name\":" ++ encodeJsonString pd.Device.DeviceName ++
  ",\"cdi_device_ids\":" ++ encodeJsonStrArray pd.Device.CDIDeviceIDs ++
  ",\"ContainerEdits\":\x7b\"env\":" ++ encodeJsonStrArray pd.ContainerEditsEnv ++
  "\x7d\x7d"

/-- JSON array of prepared devices. -/
def encodePreparedDevices (pds : PreparedDevices) : String :=
  "[" ++ String.intercalate "," (pds.map encodePreparedDevice) ++ "]"

/-- Insertion into a key-sorted association list (Go's `json.Marshal`
serializes map keys in sorted order). -/
def insertSortedByKey (e : String × PreparedDevices) :
    PreparedClaims → PreparedClaims
  | [] => [e]
  | x :: xs => if e.1 ≤ x.1 then e :: x :: xs else x :: insertSortedByKey e xs

/-- Key-sorted view of the claims map. -/
def sortByKey (l : PreparedClaims) : PreparedClaims := l.foldr insertSortedByKey []

/-- JSON encoding of the `preparedClaims` map, keys sorted. -/
def encodeClaimsMap (claims : PreparedClaims) : String :=
  "\x7b" ++ String.intercalate ","
    ((sortByKey claims).map
      (fun e => encodeJsonString e.1 ++ ":" ++ encodePreparedDevices e.2)) ++ "\x7d"

/-- JSON encoding of the `v1` payload (`CheckpointV1`): its single field
carries `json:"preparedClaims,omitempty"`, so an empty map is omitted. -/
def encodeV1Str (claims : PreparedClaims) : String :=
  if claims.isEmpty then "\x7b\x7d"
  else "\x7b\"preparedClaims\":" ++ encodeClaimsMap claims ++ "\x7d"

/-- JSON encoding of the whole checkpoint: the `checksum` field then the
`v1` field, in struct order. -/
def encodeCheckpointStr (ck : Nat) (claims : PreparedClaims) : String :=
  "\x7b\"checksum\":" ++ toString ck ++ ",\"v1\":" ++ encodeV1Str claims ++ "\x7d"

/-- Bytes of a string, modelled as character codes. -/
def charCodes (s : String) : List Nat := s.data.map Char.toNat

/-- Serialized checkpoint bytes. -/
def encodeCheckpoint (ck : Nat) (claims : PreparedClaims) : List Nat :=
  charCodes (encodeCheckpointStr ck claims)

/-- FNV-1a 32-bit prime. -/
def fnvPrime : Nat := 16777619

/-- FNV-1a 32-bit offset basis. -/
def fnvOffset : Nat := 2166136261

/-- One FNV-1a step over one byte. -/
def fnvStep (h b : Nat) : Nat := ((h ^^^ b) * fnvPrime) % 2 ^ 32

/-- Modelled from the spec: the checksum of the external checkpoint-manager
checksum helper, as 32-bit FNV-1a over the serialized bytes (spec §4.5:
the checksum is computed over the zero-checksum JSON encoding). -/
def fnv1a (l : List Nat) : Nat := l.foldl fnvStep fnvOffset

/-- The in-memory `Checkpoint` value: checksum field plus the `V1` payload's
prepared-claims map. -/
structure CheckpointM where
  checksum : Nat
  preparedClaims : PreparedClaims
deriving Repr

/-- `Checkpoint.MarshalCheckpoint` (pkg/checkpoint): zero the checksum
field, marshal, store the checksum of that encoding in the field, and
marshal again.  Returns the serialized bytes and the mutated receiver. -/
def MarshalCheckpoint (cp : CheckpointM) : List Nat × CheckpointM :=
  let cp1 : CheckpointM := { cp with checksum := 0 }
  let out := encodeCheckpoint cp1.checksum cp1.preparedClaims
  let cp2 : CheckpointM := { cp1 with checksum := fnv1a out }
  (encodeCheckpoint cp2.checksum cp2.preparedClaims, cp2)

/-- `Checkpoint.VerifyChecksum` (pkg/checkpoint): remember the stored
checksum, zero the field, marshal, compare the encoding's checksum with the
stored one, and restore the stored value regardless of outcome.  Returns the
comparison outcome and the receiver's final state. -/
def VerifyChecksum (cp : CheckpointM) : Bool × CheckpointM :=
  let ck := cp.checksum
  let cp1 : CheckpointM := { cp with checksum := 0 }
  let out := encodeCheckpoint cp1.checksum cp1.preparedClaims
  (fnv1a out == ck, { cp1 with checksum := ck })

/-! ## Concrete example inputs used by the witnesses -/

/-- Example helpers: two PFs with two VFs each, no VF-indicator symlinks,
fixed interface names. -/
def c2Helpers : Helpers :=
  ⟨fun _ => false,
   fun a => if a = "0000:08:00.0" then "ens1" else "ens2",
   fun _ => "legacy",
   fun a => if a = "0000:08:00.0" then .ok ["0000:08:10.0", "0000:08:10.2"]
            else .ok ["0000:08:11.0", "0000:08:11.2"]⟩

/-- Example PCI device list: two network-class PFs. -/
def c2Devices : List PCIDevice :=
  [⟨"0000:08:00.0", "02", "8086", "1572"⟩, ⟨"0000:08:01.0", "02", "8086", "1583"⟩]

/-- Example prepared devices (legacy shape). -/
def c3Pds : PreparedDevices :=
  [⟨⟨["a"], "pool", "dev1", ["id1"]⟩, ["VF_DEVICE_dev1=p1"]⟩]

/-- Example node state with one claim already checkpointed. -/
def c3St : NodeState := ⟨[("uid1", c3Pds)], [("uid1", c3Pds)]⟩

/-- Example claim reserved by exactly one pod. -/
def c3Claim : Claim := ⟨"c", "ns", "uid1", none, [⟨"pod1", "p"⟩]⟩

/-- Example prepared device (NRI shape). -/
def c3PdsNri : PreparedDevicesNRI :=
  [{ ClaimName := "c", ClaimNamespace := "ns", ClaimUID := "uid1",
     PodUID := "pod1", PodName := "p", PodNamespace := "ns",
     Device := ⟨["a"], "pool", "dev1", ["id1"]⟩,
     ContainerEditsEnv := ["VF_DEVICE_dev1=p1"], NetAttachDefConfig := "cfg",
     IfName := "eth0" }]

/-- Example pod manager holding that claim. -/
def c3Pm : PodManager := ⟨[(("pod1", "uid1"), c3PdsNri)]⟩

/-- Example Kubernetes environment whose net-attach-def lookup succeeds. -/
def c3Env : K8sEnv := ⟨fun _ _ => .ok "cfg"⟩

/-- Example allocated claim with zero allocation results: Go's
`prepareDevices` returns a nil slice for it, so `Prepare` checkpoints the
claim UID mapped to the nil device list. -/
def c3ClaimZ : Claim := ⟨"cz", "ns", "uidZ", some ⟨[], []⟩, [⟨"pod1", "p"⟩]⟩

/-- The node state after a first successful `Prepare` of the zero-result
claim on an empty node state. -/
def c3StZ : NodeState := (DeviceStatePrepare [] ⟨[], []⟩ c3ClaimZ).2.1

/-- Example claim with no reserving pod. -/
def c4C0 : Claim := ⟨"c0", "ns", "u0", none, []⟩

/-- Example claim with two reserving pods. -/
def c4C2 : Claim := ⟨"c2", "ns", "u2", none, [⟨"p1", "a"⟩, ⟨"p2", "b"⟩]⟩

/-- Example allocated claim with one result, a valid scoped config and an
empty ReservedFor list. -/
def c10Claim : Claim :=
  ⟨"c", "ns", "u",
   some ⟨[⟨"a", "pool", "dev1"⟩], [⟨["a"], DriverName, .ok (.vf ⟨"net1", "eth1"⟩)⟩]⟩, []⟩

/-! ## Theorems -/

/-! ### Config resolution (C1) -/

theorem cfgMatches_default (q : String) : cfgMatches defaultConfigEntry q = true := rfl

theorem lastMatchIdx_isSome_of_head (c : OpaqueDeviceConfig) (cs : List OpaqueDeviceConfig)
    (q : String) (h : cfgMatches c q = true) : (lastMatchIdx (c :: cs) q).isSome = true := by
  unfold lastMatchIdx
  cases hcs : lastMatchIdx cs q with
  | some i => rfl
  | none => simp [h]

theorem lastMatchIdx_lt (cs : List OpaqueDeviceConfig) (q : String) (i : Nat)
    (h : lastMatchIdx cs q = some i) : i < cs.length := by
  induction cs generalizing i with
  | nil => simp [lastMatchIdx] at h
  | cons c rest ih =>
    unfold lastMatchIdx at h
    cases hrest : lastMatchIdx rest q with
    | some j =>
      rw [hrest] at h
      cases h
      exact Nat.succ_lt_succ (ih j hrest)
    | none =>
      rw [hrest] at h
      by_cases hm : cfgMatches c q = true
      · simp [hm] at h
        cases h
        exact Nat.succ_pos _
      · simp [Bool.eq_false_iff.mpr hm] at h

theorem lastMatchIdx_none (cs : List OpaqueDeviceConfig) (q : String)
    (h : ∀ c ∈ cs, cfgMatches c q = false) : lastMatchIdx cs q = none := by
  induction cs with
  | nil => rfl
  | cons c rest ih =>
    unfold lastMatchIdx
    rw [ih (fun c' hc' => h c' (List.mem_cons_of_mem c hc'))]
    simp [h c (List.mem_cons_self c rest)]

theorem lastMatchIdx_append (pre : List OpaqueDeviceConfig) (c : OpaqueDeviceConfig)
    (post : List OpaqueDeviceConfig) (q : String) (hc : cfgMatches c q = true)
    (hpost : ∀ c' ∈ post, cfgMatches c' q = false) :
    lastMatchIdx (pre ++ c :: post) q = some pre.length := by
  induction pre with
  | nil =>
    show lastMatchIdx (c :: post) q = some 0
    unfold lastMatchIdx
    rw [lastMatchIdx_none post q hpost]
    simp [hc]
  | cons p rest ih =>
    show lastMatchIdx (p :: (rest ++ c :: post)) q = some (rest.length + 1)
    unfold lastMatchIdx
    rw [ih]

theorem get?_append_cons {α : Type} (pre : List α) (c : α) (post : List α) :
    (pre ++ c :: post).get? pre.length = some c := by
  induction pre with
  | nil => rfl
  | cons p rest ih => simpa using ih

theorem sum_indicator_range (n j : Nat) (hj : j < n) :
    (((List.range n).map (fun i => if (j : Nat) = i then 1 else 0)).sum) = 1 := by
  induction n with
  | zero => omega
  | succ m ih =>
    rw [List.range_succ, List.map_append, List.sum_append]
    rcases Nat.lt_or_ge j m with hlt | hge
    · rw [ih hlt]
      have : j ≠ m := Nat.ne_of_lt hlt
      simp [this]
    · have hjm : j = m := Nat.le_antisymm (Nat.le_of_lt_succ hj) hge
      subst hjm
      have : (((List.range j).map (fun i => if j = i then 1 else 0)).sum) = 0 := by
        apply List.sum_eq_zero
        intro x hx
        rcases List.mem_map.mp hx with ⟨i, hi, hix⟩
        have : j ≠ i := Nat.ne_of_gt (List.mem_range.mp hi)
        simp [this] at hix
        omega
      simp [this]

theorem sum_indicator_range_option (n j : Nat) (hj : j < n) :
    (((List.range n).map (fun i => if (some j : Option Nat) = some i then 1 else 0)).sum) = 1 := by
  have : (fun i => if (some j : Option Nat) = some i then (1 : Nat) else 0) =
      (fun i => if j = i then 1 else 0) := by
    funext i
    by_cases h : j = i <;> simp [h]
  rw [this]
  exact sum_indicator_range n j hj

theorem filter_partition_length (cfgs : List OpaqueDeviceConfig) (results : List AllocResult)
    (htot : ∀ r ∈ results, ∃ j, lastMatchIdx cfgs r.Request = some j) :
    (((List.range cfgs.length).map
      (fun i => (results.filter (fun r => lastMatchIdx cfgs r.Request = some i)).length)).sum) =
      results.length := by
  induction results with
  | nil => simp
  | cons r rs ih =>
    have hr := htot r (List.mem_cons_self r rs)
    rcases hr with ⟨j, hj⟩
    have hjlt : j < cfgs.length := lastMatchIdx_lt cfgs r.Request j hj
    have hsplit : ∀ i : Nat,
        ((r :: rs).filter (fun x => lastMatchIdx cfgs x.Request = some i)).length =
        (if (some j : Option Nat) = some i then 1 else 0) +
          (rs.filter (fun x => lastMatchIdx cfgs x.Request = some i)).length := by
      intro i
      rw [List.filter_cons]
      by_cases hij : lastMatchIdx cfgs r.Request = some i
      · rw [hj] at hij
        simp [hj, hij]
        omega
      · rw [hj] at hij
        simp [hj, hij]
    have hmap : ((List.range cfgs.length).map
        (fun i => ((r :: rs).filter (fun x => lastMatchIdx cfgs x.Request = some i)).length)) =
        ((List.range cfgs.length).map
          (fun i => (if (some j : Option Nat) = some i then 1 else 0) +
            (rs.filter (fun x => lastMatchIdx cfgs x.Request = some i)).length)) := by
      apply List.map_congr_left
      intro i _
      exact hsplit i
    rw [hmap]
    have hsum : ∀ (f g : Nat → Nat) (l : List Nat),
        ((l.map (fun i => f i + g i)).sum) = (l.map f).sum + (l.map g).sum := by
      intro f g l
      induction l with
      | nil => simp
      | cons a as ihl => simp [ihl]; omega
    rw [hsum]
    rw [sum_indicator_range_option cfgs.length j hjlt]
    rw [ih (fun x hx => htot x (List.mem_cons_of_mem r hx))]
    simp [List.length_cons]
    omega

theorem enum_map_on_fst {α β : Type} (l : List α) (h : Nat → β) :
    l.enum.map (fun ic => h ic.1) = (List.range l.length).map h := by
  rw [← List.enum_map_fst l, List.map_map]
  rfl

theorem sum_filter_nonempty {α : Type} (l : List (α × List AllocResult)) :
    (((l.filter (fun p => !p.2.isEmpty)).map (fun p => p.2.length)).sum) =
      ((l.map (fun p => p.2.length)).sum) := by
  induction l with
  | nil => rfl
  | cons p rest ih =>
    rw [List.filter_cons]
    by_cases hp : p.2.isEmpty
    · have : p.2.length = 0 := by
        cases h2 : p.2 with
        | nil => rfl
        | cons a as => rw [h2] at hp; simp [List.isEmpty] at hp
      simp [hp, this, ih]
    · simp [hp, ih]

/-- C1.  For every allocated claim processed by prepare — both
`DeviceState.prepareDevices` (pkg/state) and
`DeviceStateManager.getConfigResultsMap` (pkg/devicestate) run the shared
grouping modelled by `getConfigResultsMap` — each device allocation result
is assigned exactly one config: with every requested device allocatable the
grouping succeeds and the group sizes sum to the number of results, so each
result lands in exactly one group; each result's group is the one the
backward scan (`lastMatchIdx`) selects; the scan always selects some config
(the prepended zero-value default matches everything); a config scoped to a
request name, with no more recently added config matching that name, is
selected for it; and a request matching no config of the claim resolves to
the prepended default. -/
theorem c1_config_resolution (alloc : AllocatableDevices) (configs : List OpaqueDeviceConfig)
    (results : List AllocResult)
    (halloc : ∀ r ∈ results, (lookupDevice alloc r.Device).isSome = true) :
    ∃ groups, getConfigResultsMap alloc configs results = .ok groups ∧
      ((groups.map (fun p => p.2.length)).sum = results.length) ∧
      (∀ r ∈ results, ∃ i c gs, ((i, c), gs) ∈ groups ∧ r ∈ gs ∧
        lastMatchIdx (withDefaultConfig configs) r.Request = some i ∧
        (withDefaultConfig configs).get? i = some c) ∧
      (∀ q : String, (lastMatchIdx (withDefaultConfig configs) q).isSome = true) ∧
      (∀ (pre : List OpaqueDeviceConfig) (c : OpaqueDeviceConfig)
        (post : List OpaqueDeviceConfig) (q : String),
        configs = pre ++ c :: post → q ∈ c.Requests →
        (∀ c' ∈ post, cfgMatches c' q = false) →
        lastMatchIdx (withDefaultConfig configs) q = some (pre.length + 1) ∧
          (withDefaultConfig configs).get? (pre.length + 1) = some c) ∧
      (∀ q : String, (∀ c ∈ configs, cfgMatches c q = false) →
        lastMatchIdx (withDefaultConfig configs) q = some 0 ∧
          (withDefaultConfig configs).get? 0 = some defaultConfigEntry) := by
  have hfind : results.find? (fun r => (lookupDevice alloc r.Device).isNone) = none := by
    rw [List.find?_eq_none]
    intro r hr
    have := halloc r hr
    simp [Option.isNone, Option.isSome] at this ⊢
    cases h : lookupDevice alloc r.Device with
    | none => rw [h] at this; simp at this
    | some v => simp
  set cfgs := withDefaultConfig configs with hcfgs
  have htotal : ∀ q : String, (lastMatchIdx cfgs q).isSome = true := by
    intro q
    exact lastMatchIdx_isSome_of_head defaultConfigEntry configs q (cfgMatches_default q)
  refine ⟨(cfgs.enum.map
      (fun ic => (ic, results.filter (fun r => lastMatchIdx cfgs r.Request = some ic.1)))).filter
        (fun p => !p.2.isEmpty), ?_, ?_, ?_, htotal, ?_, ?_⟩
  · unfold getConfigResultsMap
    rw [hfind]
  · -- group sizes sum to the number of results
    rw [sum_filter_nonempty]
    have hmm : ((cfgs.enum.map
        (fun ic => (ic, results.filter (fun r => lastMatchIdx cfgs r.Request = some ic.1)))).map
          (fun p => p.2.length)) =
        cfgs.enum.map
          (fun ic => (results.filter (fun r => lastMatchIdx cfgs r.Request = some ic.1)).length) := by
      rw [List.map_map]
      rfl
    rw [hmm, enum_map_on_fst cfgs
      (fun i => (results.filter (fun r => lastMatchIdx cfgs r.Request = some i)).length)]
    apply filter_partition_length
    intro r hr
    have := htotal r.Request
    cases h : lastMatchIdx cfgs r.Request with
    | none => rw [h] at this; simp at this
    | some j => exact ⟨j, rfl⟩
  · -- each result is in the group selected by the backward scan
    intro r hr
    have := htotal r.Request
    cases hj : lastMatchIdx cfgs r.Request with
    | none => rw [hj] at this; simp at this
    | some j =>
      have hjl : j < cfgs.length := lastMatchIdx_lt cfgs r.Request j hj
      have hget : cfgs.get? j = some (cfgs.get ⟨j, hjl⟩) := List.get?_eq_get hjl
      refine ⟨j, cfgs.get ⟨j, hjl⟩,
        results.filter (fun x => lastMatchIdx cfgs x.Request = some j), ?_, ?_, rfl, hget⟩
      · apply List.mem_filter.mpr
        constructor
        · apply List.mem_map.mpr
          refine ⟨(j, cfgs.get ⟨j, hjl⟩), ?_, rfl⟩
          exact List.mk_mem_enum_iff_getElem?.mpr (by simp [← List.get?_eq_getElem?, hget])
        · have hrmem : r ∈ results.filter (fun x => lastMatchIdx cfgs x.Request = some j) :=
            List.mem_filter.mpr ⟨hr, by simp [hj]⟩
          cases hfil : results.filter (fun x => lastMatchIdx cfgs x.Request = some j) with
          | nil => rw [hfil] at hrmem; simp at hrmem
          | cons a as => simp [List.isEmpty]
      · exact List.mem_filter.mpr ⟨hr, by simp [hj]⟩
  · -- a scoped config with nothing more recent matching wins
    intro pre c post q hcfg hq hpost
    subst hcfg
    have : cfgs = (defaultConfigEntry :: pre) ++ c :: post := by
      simp [hcfgs, withDefaultConfig]
    constructor
    · rw [this, lastMatchIdx_append (defaultConfigEntry :: pre) c post q
        (by simp [cfgMatches, hq]) hpost]
      rfl
    · rw [this]
      have h := get?_append_cons (defaultConfigEntry :: pre) c post
      simpa using h
  · -- no matching config: the default at index 0 wins
    intro q hnone
    constructor
    · have : cfgs = [] ++ defaultConfigEntry :: configs := by simp [hcfgs, withDefaultConfig]
      rw [this, lastMatchIdx_append [] defaultConfigEntry configs q (cfgMatches_default q) hnone]
      rfl
    · rfl

/-- C1 witness: the spec's example — requests `a` and `b`, one config scoped
to `["a"]` over a default; request `a` resolves to the scoped config at
index 1, request `b` to the default at index 0, and both results are
assigned. -/
theorem c1_witness :
    (∀ r ∈ [AllocResult.mk "a" "pool" "dev1", AllocResult.mk "b" "pool" "dev2"],
      (lookupDevice [("dev1", ⟨"v", "d", "p1", "pf", "legacy"⟩),
        ("dev2", ⟨"v", "d", "p2", "pf", "legacy"⟩)] r.Device).isSome = true) ∧
    ∃ groups,
      getConfigResultsMap
        [("dev1", ⟨"v", "d", "p1", "pf", "legacy"⟩), ("dev2", ⟨"v", "d", "p2", "pf", "legacy"⟩)]
        [⟨["a"], .vf ⟨"net1", "eth0"⟩⟩]
        [AllocResult.mk "a" "pool" "dev1", AllocResult.mk "b" "pool" "dev2"] = .ok groups ∧
      ((groups.map (fun p => p.2.length)).sum = 2) := by
  constructor
  · decide
  · rcases c1_config_resolution
      [("dev1", ⟨"v", "d", "p1", "pf", "legacy"⟩), ("dev2", ⟨"v", "d", "p2", "pf", "legacy"⟩)]
      [⟨["a"], .vf ⟨"net1", "eth0"⟩⟩]
      [AllocResult.mk "a" "pool" "dev1", AllocResult.mk "b" "pool" "dev2"]
      (by decide) with ⟨groups, hok, hsum, _⟩
    exact ⟨groups, hok, hsum⟩

/-! ### Discovery (C2, C8) -/

theorem assocLookup_append_of_not_mem {β : Type} (m₁ m₂ : List (String × β)) (k : String)
    (h : k ∉ m₁.map Prod.fst) : assocLookup (m₁ ++ m₂) k = assocLookup m₂ k := by
  induction m₁ with
  | nil => rfl
  | cons e rest ih =>
    have hk : (decide (e.1 = k)) = false := by
      simp only [decide_eq_false_iff_not]
      intro hek
      exact h (by simp [hek])
    unfold assocLookup
    rw [List.cons_append, List.find?_cons, hk]
    exact ih (fun hm => h (List.mem_cons_of_mem _ hm))

theorem assocLookup_of_nodup {β : Type} (l : List (String × β)) (k : String) (v : β)
    (hmem : (k, v) ∈ l) (hnd : (l.map Prod.fst).Nodup) : assocLookup l k = some v := by
  induction l with
  | nil => simp at hmem
  | cons e rest ih =>
    rcases List.mem_cons.mp hmem with he | hrest
    · subst he
      unfold assocLookup
      simp [List.find?_cons]
    · have hk : e.1 ≠ k := by
        intro hek
        have : k ∈ rest.map Prod.fst := List.mem_map.mpr ⟨(k, v), hrest, rfl⟩
        rw [List.map_cons] at hnd
        rw [hek] at hnd
        exact (List.nodup_cons.mp hnd).1 this
      unfold assocLookup
      rw [List.find?_cons]
      have : (decide (e.1 = k)) = false := by simp [hk]
      rw [this]
      exact ih hrest ((List.nodup_cons.mp (by rw [List.map_cons] at hnd; exact hnd)).2)

theorem assocInsert_fresh {β : Type} (m : List (String × β)) (k : String) (v : β)
    (h : k ∉ m.map Prod.fst) : assocInsert m k v = m ++ [(k, v)] := by
  induction m with
  | nil => rfl
  | cons e rest ih =>
    have hk : e.1 ≠ k := by
      intro hek
      exact h (by simp [hek])
    unfold assocInsert
    rw [if_neg hk]
    rw [ih (fun hm => h (List.mem_cons_of_mem _ hm))]
    rfl

theorem mapInsert_fresh (m : AllocatableDevices) (k : String) (v : DeviceAttrs)
    (h : k ∉ m.map Prod.fst) : mapInsert m k v = m ++ [(k, v)] :=
  assocInsert_fresh m k v h

theorem assocLookup_insert_self {β : Type} (m : List (String × β)) (k : String) (v : β) :
    assocLookup (assocInsert m k v) k = some v := by
  induction m with
  | nil => simp [assocInsert, assocLookup, List.find?]
  | cons e rest ih =>
    unfold assocInsert
    by_cases hk : e.1 = k
    · rw [if_pos hk]
      simp [assocLookup, List.find?]
    · rw [if_neg hk]
      unfold assocLookup
      rw [List.find?_cons]
      have : (decide (e.1 = k)) = false := by simp [hk]
      rw [this]
      exact ih

theorem addVFEntries_eq_append (pf : PFInfo) (vfs : List String) (m : AllocatableDevices)
    (h : (m.map Prod.fst ++ vfs.map vfDeviceName).Nodup) :
    addVFEntries pf vfs m = m ++ vfs.map (fun vf => (vfDeviceName vf, vfDeviceAttrs pf vf)) := by
  induction vfs generalizing m with
  | nil => simp [addVFEntries]
  | cons vf rest ih =>
    have hfresh : vfDeviceName vf ∉ m.map Prod.fst := by
      intro hmem
      have hd := List.disjoint_of_nodup_append h
      exact hd hmem (by simp)
    unfold addVFEntries
    simp only [List.foldl_cons]
    rw [mapInsert_fresh m (vfDeviceName vf) (vfDeviceAttrs pf vf) hfresh]
    have h2 : ((m ++ [(vfDeviceName vf, vfDeviceAttrs pf vf)]).map Prod.fst ++
        rest.map vfDeviceName).Nodup := by
      simp only [List.map_append, List.map_cons, List.map_nil]
      rw [List.append_assoc]
      simpa using h
    have := ih (m ++ [(vfDeviceName vf, vfDeviceAttrs pf vf)]) h2
    unfold addVFEntries at this
    rw [this]
    simp

theorem discoverFold_spec (h : Helpers) (pfs : List PFInfo) (m : AllocatableDevices)
    (hok : ∀ pf ∈ pfs, isErr (h.getVFList pf.Address) = false)
    (hnd : (m.map Prod.fst ++ (pfs.flatMap (fun pf =>
      (match h.getVFList pf.Address with
       | .ok vfs => vfs
       | .error _ => []).map vfDeviceName))).Nodup) :
    discoverFold h pfs m = .ok (m ++ pfs.flatMap (fun pf =>
      (match h.getVFList pf.Address with
       | .ok vfs => vfs
       | .error _ => []).map (fun vf => (vfDeviceName vf, vfDeviceAttrs pf vf)))) := by
  induction pfs generalizing m with
  | nil => simp [discoverFold]
  | cons pf rest ih =>
    have hpf := hok pf (List.mem_cons_self pf rest)
    cases hvf : h.getVFList pf.Address with
    | error e => rw [hvf] at hpf; simp [isErr] at hpf
    | ok vfs =>
      unfold discoverFold
      rw [hvf]
      show discoverFold h rest (addVFEntries pf vfs m) = _
      simp only [List.flatMap_cons, hvf] at hnd
      have hnd1 : (m.map Prod.fst ++ vfs.map vfDeviceName).Nodup := by
        have := hnd
        rw [← List.append_assoc] at this
        exact this.of_append_left
      rw [addVFEntries_eq_append pf vfs m hnd1]
      have hnd2 : ((m ++ vfs.map (fun vf => (vfDeviceName vf, vfDeviceAttrs pf vf))).map
          Prod.fst ++ (rest.flatMap (fun pf =>
            (match h.getVFList pf.Address with
             | .ok vfs => vfs
             | .error _ => []).map vfDeviceName))).Nodup := by
        rw [List.map_append, List.map_map]
        rw [List.append_assoc]
        have hmm : vfs.map (Prod.fst ∘ fun vf => (vfDeviceName vf, vfDeviceAttrs pf vf)) =
            vfs.map vfDeviceName := by
          apply List.map_congr_left
          intro vf _
          rfl
        rw [hmm]
        exact hnd
      have := ih (m ++ vfs.map (fun vf => (vfDeviceName vf, vfDeviceAttrs pf vf)))
        (fun p hp => hok p (List.mem_cons_of_mem pf hp)) hnd2
      rw [this]
      simp [List.flatMap_cons, hvf]

theorem discoverFold_isErr (h : Helpers) (pfs : List PFInfo) (m : AllocatableDevices) :
    isErr (discoverFold h pfs m) = true ↔
      ∃ pf ∈ pfs, isErr (h.getVFList pf.Address) = true := by
  induction pfs generalizing m with
  | nil => simp [discoverFold, isErr]
  | cons pf rest ih =>
    unfold discoverFold
    cases hvf : h.getVFList pf.Address with
    | error e =>
      constructor
      · intro _
        exact ⟨pf, List.mem_cons_self pf rest, by rw [hvf]; rfl⟩
      · intro _
        rfl
    | ok vfs =>
      show isErr (discoverFold h rest (addVFEntries pf vfs m)) = true ↔ _
      constructor
      · intro herr
        rcases (ih (addVFEntries pf vfs m)).mp herr with ⟨p, hp, hperr⟩
        exact ⟨p, List.mem_cons_of_mem pf hp, hperr⟩
      · intro ⟨p, hp, hperr⟩
        rcases List.mem_cons.mp hp with hpf | hrest
        · subst hpf
          rw [hvf] at hperr
          simp [isErr] at hperr
        · exact (ih (addVFEntries pf vfs m)).mpr ⟨p, hrest, hperr⟩

theorem DiscoverSriovDevices_eq_fold (h : Helpers) (devices : List PCIDevice)
    (hne : devices.isEmpty = false) :
    DiscoverSriovDevices h (.ok devices) = discoverFold h (buildPFList h devices) [] := by
  show (if devices.isEmpty then Except.error "could not retrieve PCI devices"
    else discoverFold h (buildPFList h devices) []) =
    discoverFold h (buildPFList h devices) []
  rw [hne]
  simp

/-- C2.  When discovery succeeds on a fixed PCI/sysfs state (with the VF
device names it finds pairwise distinct, as they are for real sysfs states
where each VF has a single PCI address): the catalog is exactly one entry
per VF symlink of each discovered PF, keyed by the VF's PCI address with `:`
and `.` replaced by `-`; looking up a VF's key yields the parent PF's vendor
ID, device ID, interface name and eswitch mode with the VF's own PCI
address; and the catalog size is the total number of VF symlinks found. -/
theorem c2_discovery_catalog (h : Helpers) (devices : List PCIDevice) (m : AllocatableDevices)
    (hdisc : DiscoverSriovDevices h (.ok devices) = .ok m)
    (hnodup : ((allVFEntries h devices).map Prod.fst).Nodup) :
    m = allVFEntries h devices ∧
    (∀ pf ∈ buildPFList h devices, ∀ vfs, h.getVFList pf.Address = .ok vfs →
      ∀ vf ∈ vfs, lookupDevice m (vfDeviceName vf) =
        some ⟨pf.VendorID, pf.DeviceID, vf, pf.NetName, pf.EswitchMode⟩) ∧
    m.length = ((buildPFList h devices).map (fun pf =>
      match h.getVFList pf.Address with
      | .ok vfs => vfs.length
      | .error _ => 0)).sum := by
  have hne : devices.isEmpty = false := by
    cases hd : devices.isEmpty
    · rfl
    · exfalso
      have : DiscoverSriovDevices h (.ok devices) =
          Except.error "could not retrieve PCI devices" := by
        show (if devices.isEmpty then Except.error "could not retrieve PCI devices"
          else discoverFold h (buildPFList h devices) []) =
          Except.error "could not retrieve PCI devices"
        rw [hd]
        simp
      rw [this] at hdisc
      cases hdisc
  rw [DiscoverSriovDevices_eq_fold h devices hne] at hdisc
  have hok : ∀ pf ∈ buildPFList h devices, isErr (h.getVFList pf.Address) = false := by
    intro pf hpf
    cases hvf : isErr (h.getVFList pf.Address)
    · rfl
    · exfalso
      have : isErr (discoverFold h (buildPFList h devices) []) = true :=
        (discoverFold_isErr h (buildPFList h devices) []).mpr ⟨pf, hpf, hvf⟩
      rw [hdisc] at this
      simp [isErr] at this
  have hnd0 : (([] : AllocatableDevices).map Prod.fst ++
      ((buildPFList h devices).flatMap (fun pf =>
        (match h.getVFList pf.Address with
         | .ok vfs => vfs
         | .error _ => []).map vfDeviceName))).Nodup := by
    simp only [List.map_nil, List.nil_append]
    have hpt : ∀ pf : PFInfo,
        ((match h.getVFList pf.Address with
          | .ok vfs => vfs
          | .error _ => []).map (fun vf => (vfDeviceName vf, vfDeviceAttrs pf vf))).map
            Prod.fst =
        (match h.getVFList pf.Address with
         | .ok vfs => vfs
         | .error _ => []).map vfDeviceName := by
      intro pf
      rw [List.map_map]
      rfl
    have : (allVFEntries h devices).map Prod.fst =
        (buildPFList h devices).flatMap (fun pf =>
          (match h.getVFList pf.Address with
           | .ok vfs => vfs
           | .error _ => []).map vfDeviceName) := by
      unfold allVFEntries
      rw [List.map_flatMap]
      simp only [hpt]
    rw [← this]
    exact hnodup
  have hspec := discoverFold_spec h (buildPFList h devices) [] hok hnd0
  rw [hspec] at hdisc
  have hm : m = allVFEntries h devices := by
    have := hdisc
    injection this with hv
    rw [← hv]
    unfold allVFEntries
    simp
  refine ⟨hm, ?_, ?_⟩
  · intro pf hpf vfs hvfs vf hvf
    have hmem : (vfDeviceName vf, vfDeviceAttrs pf vf) ∈ allVFEntries h devices := by
      unfold allVFEntries
      apply List.mem_flatMap.mpr
      exact ⟨pf, hpf, by rw [hvfs]; exact List.mem_map.mpr ⟨vf, hvf, rfl⟩⟩
    rw [hm]
    exact assocLookup_of_nodup _ _ _ hmem hnodup
  · rw [hm]
    unfold allVFEntries
    rw [List.length_flatMap]
    congr 1
    apply List.map_congr_left
    intro pf _
    cases hvf : h.getVFList pf.Address with
    | error e => simp [hvf]
    | ok vfs => simp [hvf]

/-- C2 witness: for the concrete two-PF, four-VF state the discovery
hypotheses hold, and the catalog lookup of the first VF returns the parent
PF's vendor/device/interface attributes with the VF's own PCI address. -/
theorem c2_witness :
    lookupDevice (allVFEntries c2Helpers c2Devices) "0000-08-10-0" =
      some ⟨"8086", "1572", "0000:08:10.0", "ens1", "legacy"⟩ :=
  (c2_discovery_catalog c2Helpers c2Devices (allVFEntries c2Helpers c2Devices)
    (by rfl) (by decide)).2.1
    ⟨"0000:08:00.0", "ens1", "8086", "1572", "0000:08:00.0", "legacy"⟩ (by decide)
    ["0000:08:10.0", "0000:08:10.2"] (by rfl) "0000:08:10.0" (by decide)

theorem keepPF_isSome_iff (h : Helpers) (d : PCIDevice) :
    (keepPF h d).isSome = true ↔
      ∃ c, parseInt16 d.classID = some c ∧ c = NetClass ∧
        h.isSriovVF d.address = false ∧ h.tryGetInterfaceName d.address ≠ "" := by
  unfold keepPF
  cases hp : parseInt16 d.classID with
  | none => simp
  | some c =>
    by_cases hc : c = NetClass
    · subst hc
      by_cases hvf : h.isSriovVF d.address
      · simp [hvf]
      · by_cases hname : h.tryGetInterfaceName d.address = ""
        · simp [hvf, hname]
        · simp [hvf, hname]
    · simp [hc]

/-- C8.  Discovery returns an error exactly when the PCI enumeration fails,
zero PCI devices are found, or VF listing fails for some discovered PF; a
device is kept as a PF exactly when its class parses, is the network class,
it is not itself a VF and it has a resolvable interface name; and inserting
a skipped device anywhere into a non-degenerate device list leaves the
discovery result unchanged. -/
theorem c8_discovery_errors (h : Helpers) (pci : Except String (List PCIDevice)) :
    (isErr (DiscoverSriovDevices h pci) = true ↔
      (isErr pci = true ∨ ∃ devs, pci = .ok devs ∧ (devs.isEmpty = true ∨
        ∃ pf ∈ buildPFList h devs, isErr (h.getVFList pf.Address) = true))) ∧
    (∀ d : PCIDevice, keepPF h d = none ↔
      ¬(∃ c, parseInt16 d.classID = some c ∧ c = NetClass ∧
        h.isSriovVF d.address = false ∧ h.tryGetInterfaceName d.address ≠ "")) ∧
    (∀ (l₁ : List PCIDevice) (d : PCIDevice) (l₂ : List PCIDevice),
      keepPF h d = none → (l₁ ++ l₂).isEmpty = false →
      DiscoverSriovDevices h (.ok (l₁ ++ d :: l₂)) = DiscoverSriovDevices h (.ok (l₁ ++ l₂))) := by
  refine ⟨?_, ?_, ?_⟩
  · cases pci with
    | error e =>
      simp [DiscoverSriovDevices, isErr]
    | ok devs =>
      cases hemp : devs.isEmpty with
      | true =>
        constructor
        · intro _
          exact Or.inr ⟨devs, rfl, Or.inl hemp⟩
        · intro _
          show isErr (if devs.isEmpty then Except.error "could not retrieve PCI devices"
            else discoverFold h (buildPFList h devs) []) = true
          rw [hemp]
          rfl
      | false =>
        rw [DiscoverSriovDevices_eq_fold h devs hemp]
        rw [discoverFold_isErr h (buildPFList h devs) []]
        constructor
        · intro hex
          exact Or.inr ⟨devs, rfl, Or.inr hex⟩
        · intro hd
          rcases hd with habs | ⟨devs', heq, hd⟩
          · simp [isErr] at habs
          · injection heq with heq
            subst heq
            rcases hd with habs | hex
            · rw [hemp] at habs
              cases habs
            · exact hex
  · intro d
    rw [← Option.not_isSome_iff_eq_none, keepPF_isSome_iff h d]
  · intro l₁ d l₂ hskip hne
    have hb : buildPFList h (l₁ ++ d :: l₂) = buildPFList h (l₁ ++ l₂) := by
      unfold buildPFList
      rw [List.filterMap_append, List.filterMap_append, List.filterMap_cons, hskip]
    have hne1 : (l₁ ++ d :: l₂).isEmpty = false := by
      cases l₁ <;> rfl
    rw [DiscoverSriovDevices_eq_fold h (l₁ ++ d :: l₂) hne1,
      DiscoverSriovDevices_eq_fold h (l₁ ++ l₂) hne, hb]

/-- C8 witness: a state whose only network PF fails VF listing makes
discovery fail; and a storage-class device (class `01`) is skipped. -/
theorem c8_witness :
    (isErr (DiscoverSriovDevices
      ⟨fun _ => false, fun _ => "ens1", fun _ => "legacy", fun _ => .error "boom"⟩
      (.ok c2Devices)) = true) ∧
    (keepPF c2Helpers ⟨"0000:03:00.0", "01", "8086", "1572"⟩ = none) ∧
    (DiscoverSriovDevices c2Helpers
        (.ok (c2Devices ++ [⟨"0000:03:00.0", "01", "8086", "1572"⟩])) =
      DiscoverSriovDevices c2Helpers (.ok c2Devices)) := by
  refine ⟨?_, ?_, ?_⟩
  · exact (c8_discovery_errors
      ⟨fun _ => false, fun _ => "ens1", fun _ => "legacy", fun _ => .error "boom"⟩
      (.ok c2Devices)).1.mpr
      (Or.inr ⟨c2Devices, rfl, Or.inr
        ⟨⟨"0000:08:00.0", "ens1", "8086", "1572", "0000:08:00.0", "legacy"⟩,
          by decide, by decide⟩⟩)
  · exact (c8_discovery_errors c2Helpers (.ok c2Devices)).2.1
      ⟨"0000:03:00.0", "01", "8086", "1572"⟩ |>.mpr (by decide)
  · have := (c8_discovery_errors c2Helpers
      (.ok (c2Devices ++ [⟨"0000:03:00.0", "01", "8086", "1572"⟩]))).2.2
      c2Devices ⟨"0000:03:00.0", "01", "8086", "1572"⟩ []
      (by decide) (by decide)
    simpa using this

/-! ### Prepare idempotence and unknown-claim unprepare (C3, C7) -/

theorem DeviceStatePrepare_hit (alloc : AllocatableDevices) (st : NodeState) (claim : Claim)
    (pds : PreparedDevices) (h : assocLookup st.checkpointClaims claim.UID = some pds)
    (hne : pds ≠ []) :
    DeviceStatePrepare alloc st claim = (.ok (GetDevices pds), st, []) := by
  obtain ⟨d, rest, rfl⟩ := List.exists_cons_of_ne_nil hne
  unfold DeviceStatePrepare
  rw [h]

theorem DeviceStatePrepare_miss_ok (alloc : AllocatableDevices) (st : NodeState) (claim : Claim)
    (pds : PreparedDevices)
    (h : assocLookup st.checkpointClaims claim.UID = none ∨
      assocLookup st.checkpointClaims claim.UID = some [])
    (hp : prepareDevicesLegacy alloc claim = .ok pds) :
    DeviceStatePrepare alloc st claim = (.ok (GetDevices pds),
      ⟨assocInsert st.checkpointClaims claim.UID pds, assocInsert st.cdiSpecFiles claim.UID pds⟩,
      [.cdiSpecWrite claim.UID, .checkpointWrite]) := by
  unfold DeviceStatePrepare
  rcases h with h | h
  · rw [h, hp]
  · rw [h, hp]

theorem DeviceStatePrepare_miss_err (alloc : AllocatableDevices) (st : NodeState) (claim : Claim)
    (e : String)
    (h : assocLookup st.checkpointClaims claim.UID = none ∨
      assocLookup st.checkpointClaims claim.UID = some [])
    (hp : prepareDevicesLegacy alloc claim = .error e) :
    DeviceStatePrepare alloc st claim = (.error ("prepare failed: " ++ e), st, []) := by
  unfold DeviceStatePrepare
  rcases h with h | h
  · rw [h, hp]
  · rw [h, hp]

theorem find?_append_of_none {α : Type} (l₁ l₂ : List α) (p : α → Bool)
    (h : l₁.find? p = none) : (l₁ ++ l₂).find? p = l₂.find? p := by
  induction l₁ with
  | nil => rfl
  | cons a rest ih =>
    rw [List.find?_cons] at h
    rw [List.cons_append, List.find?_cons]
    cases hp : p a with
    | true =>
      rw [hp] at h
      cases h
    | false =>
      rw [hp] at h
      exact ih h

theorem pmGet_after_set (pm : PodManager) (p c : String) (pds : PreparedDevicesNRI)
    (pm' : PodManager) (h : pmSet pm p c pds = .ok pm') : pmGet pm' p c = some pds := by
  unfold pmSet at h
  by_cases hid : p = "" ∨ c = ""
  · rw [if_pos hid] at h
    cases h
  · rw [if_neg hid] at h
    injection h with h
    subst h
    unfold pmGet
    have hnone : (pm.entries.filter
        (fun e => !(decide (e.1.1 = p ∧ e.1.2 = c)))).find?
          (fun e => decide (e.1.1 = p ∧ e.1.2 = c)) = none := by
      rw [List.find?_eq_none]
      intro e he
      have h2 := (List.mem_filter.mp he).2
      simp only [Bool.not_eq_true'] at h2
      simp [h2]
    show Option.map _ (List.find? _ (_ ++ [((p, c), pds)])) = some pds
    rw [find?_append_of_none _ _ _ hnone]
    simp [List.find?]

theorem prepareResourceClaim_noPod (env : K8sEnv) (alloc : AllocatableDevices)
    (pm : PodManager) (claim : Claim) (hr : claim.ReservedFor = []) :
    prepareResourceClaim env alloc pm claim = (.err (noPodInfoMsg claim), pm, []) := by
  unfold prepareResourceClaim
  rw [hr]
  simp

theorem prepareResourceClaim_multi (env : K8sEnv) (alloc : AllocatableDevices)
    (pm : PodManager) (claim : Claim) (pod0 pod1 : PodReference) (rest : List PodReference)
    (hr : claim.ReservedFor = pod0 :: pod1 :: rest) :
    prepareResourceClaim env alloc pm claim = (.err (multiplePodsMsg claim), pm, []) := by
  unfold prepareResourceClaim
  rw [hr]
  rw [if_neg (by simp), if_pos (by simp)]

theorem prepareResourceClaim_hit (env : K8sEnv) (alloc : AllocatableDevices) (pm : PodManager)
    (claim : Claim) (pod0 : PodReference) (pds : PreparedDevicesNRI)
    (hr : claim.ReservedFor = [pod0]) (hg : pmGet pm pod0.UID claim.UID = some pds) :
    prepareResourceClaim env alloc pm claim = (.ok (convertDevices pds), pm, []) := by
  unfold prepareResourceClaim
  rw [hr]
  rw [if_neg (by simp), if_neg (by simp)]
  simp only [List.headD_cons]
  rw [hg]

theorem prepareResourceClaim_miss_ok (env : K8sEnv) (alloc : AllocatableDevices)
    (pm : PodManager) (claim : Claim) (pod0 : PodReference) (pds : PreparedDevicesNRI)
    (effs : List DrvEffect) (pm' : PodManager)
    (hr : claim.ReservedFor = [pod0]) (hg : pmGet pm pod0.UID claim.UID = none)
    (hdsm : DSMPrepareDevices env alloc claim = (.ok pds, effs))
    (hset : pmSet pm pod0.UID claim.UID pds = .ok pm') :
    prepareResourceClaim env alloc pm claim =
      (.ok (convertDevices pds), pm', .dsmPrepare claim.UID :: effs) := by
  unfold prepareResourceClaim
  rw [hr]
  rw [if_neg (by simp), if_neg (by simp)]
  simp only [List.headD_cons]
  simp only [hg, hdsm, hset]

theorem prepareResourceClaim_miss_err (env : K8sEnv) (alloc : AllocatableDevices)
    (pm : PodManager) (claim : Claim) (pod0 : PodReference) (e : String)
    (effs : List DrvEffect)
    (hr : claim.ReservedFor = [pod0]) (hg : pmGet pm pod0.UID claim.UID = none)
    (hdsm : DSMPrepareDevices env alloc claim = (.err e, effs)) :
    prepareResourceClaim env alloc pm claim =
      (.err ("error preparing devices for claim " ++ claim.UID ++ ": " ++ e), pm,
        .dsmPrepare claim.UID :: effs) := by
  unfold prepareResourceClaim
  rw [hr]
  rw [if_neg (by simp), if_neg (by simp)]
  simp only [List.headD_cons]
  simp only [hg, hdsm]

/-- C3 counterexample: the original claim fails on a zero-result allocated
claim.  Its first checkpoint-backed `Prepare` on an empty node state
succeeds, writes the CDI spec file and the checkpoint, and records the claim
UID mapped to Go's nil device list; a second `Prepare` — with the claim UID
already present in the checkpointed PreparedClaims — nevertheless re-runs
preparation and performs a second CDI-spec write and a second checkpoint
write, because the guard at state.go:93 is `preparedClaims[claimUID] != nil`
and the stored nil list fails it. -/
theorem c3_counterexample :
    DeviceStatePrepare [] ⟨[], []⟩ c3ClaimZ =
      (.ok [], c3StZ, [.cdiSpecWrite "uidZ", .checkpointWrite]) ∧
    assocLookup c3StZ.checkpointClaims c3ClaimZ.UID = some [] ∧
    (DeviceStatePrepare [] c3StZ c3ClaimZ).2.2 =
      [.cdiSpecWrite "uidZ", .checkpointWrite] :=
  ⟨rfl, rfl, rfl⟩

/-- C3 (amended).  Prepare is idempotent for claims that prepared at least
one device: the checkpoint-backed `DeviceState.Prepare` returns the
checkpointed devices with no CDI-spec and no checkpoint write when the claim
UID maps to a non-nil (non-empty) prepared-device list, and a second call
right after any successful call that returned a non-empty device list
returns the same list with no writes (a zero-result claim stores the nil
list and is re-prepared, see the counterexample); the pod-manager-path
`Driver.prepareResourceClaim` returns the recorded devices with no
device-state-manager call when the (pod, claim) pair is already in the pod
manager, and a second call right after any successful call returns the same
device list with no effects (in particular no second
network-attachment-definition lookup). -/
theorem c3_prepare_idempotent :
    (∀ (alloc : AllocatableDevices) (st : NodeState) (claim : Claim) (pds : PreparedDevices),
      assocLookup st.checkpointClaims claim.UID = some pds → pds ≠ [] →
      DeviceStatePrepare alloc st claim = (.ok (GetDevices pds), st, [])) ∧
    (∀ (alloc : AllocatableDevices) (st : NodeState) (claim : Claim) (ds : List DraDevice)
      (st' : NodeState) (effs : List FsEffect),
      DeviceStatePrepare alloc st claim = (.ok ds, st', effs) → ds ≠ [] →
      DeviceStatePrepare alloc st' claim = (.ok ds, st', [])) ∧
    (∀ (env : K8sEnv) (alloc : AllocatableDevices) (pm : PodManager) (claim : Claim)
      (pod0 : PodReference) (pds : PreparedDevicesNRI),
      claim.ReservedFor = [pod0] → pmGet pm pod0.UID claim.UID = some pds →
      prepareResourceClaim env alloc pm claim = (.ok (convertDevices pds), pm, [])) ∧
    (∀ (env : K8sEnv) (alloc : AllocatableDevices) (pm : PodManager) (claim : Claim)
      (ds : List KDevice) (pm' : PodManager) (effs : List DrvEffect),
      prepareResourceClaim env alloc pm claim = (.ok ds, pm', effs) →
      prepareResourceClaim env alloc pm' claim = (.ok ds, pm', [])) := by
  refine ⟨?_, ?_, ?_, ?_⟩
  · intro alloc st claim pds h hne
    exact DeviceStatePrepare_hit alloc st claim pds h hne
  · intro alloc st claim ds st' effs h hne
    match hlook : assocLookup st.checkpointClaims claim.UID with
    | some (d :: rest) =>
      rw [DeviceStatePrepare_hit alloc st claim (d :: rest) hlook
        (List.cons_ne_nil d rest)] at h
      simp only [Prod.mk.injEq] at h
      obtain ⟨h1, h2, h3⟩ := h
      injection h1 with h1
      subst h1
      subst h2
      exact DeviceStatePrepare_hit alloc st claim (d :: rest) hlook (List.cons_ne_nil d rest)
    | none =>
      cases hprep : prepareDevicesLegacy alloc claim with
      | error e =>
        rw [DeviceStatePrepare_miss_err alloc st claim e (Or.inl hlook) hprep] at h
        simp only [Prod.mk.injEq] at h
        exact absurd h.1 (by simp)
      | ok pds =>
        rw [DeviceStatePrepare_miss_ok alloc st claim pds (Or.inl hlook) hprep] at h
        simp only [Prod.mk.injEq] at h
        obtain ⟨h1, h2, h3⟩ := h
        injection h1 with h1
        subst h1
        subst h2
        have hpds : pds ≠ [] := by
          intro hp
          subst hp
          exact hne rfl
        exact DeviceStatePrepare_hit alloc _ claim pds
          (assocLookup_insert_self st.checkpointClaims claim.UID pds) hpds
    | some [] =>
      cases hprep : prepareDevicesLegacy alloc claim with
      | error e =>
        rw [DeviceStatePrepare_miss_err alloc st claim e (Or.inr hlook) hprep] at h
        simp only [Prod.mk.injEq] at h
        exact absurd h.1 (by simp)
      | ok pds =>
        rw [DeviceStatePrepare_miss_ok alloc st claim pds (Or.inr hlook) hprep] at h
        simp only [Prod.mk.injEq] at h
        obtain ⟨h1, h2, h3⟩ := h
        injection h1 with h1
        subst h1
        subst h2
        have hpds : pds ≠ [] := by
          intro hp
          subst hp
          exact hne rfl
        exact DeviceStatePrepare_hit alloc _ claim pds
          (assocLookup_insert_self st.checkpointClaims claim.UID pds) hpds
  · intro env alloc pm claim pod0 pds hr hg
    exact prepareResourceClaim_hit env alloc pm claim pod0 pds hr hg
  · intro env alloc pm claim ds pm' effs h
    match hres : claim.ReservedFor with
    | [] =>
      rw [prepareResourceClaim_noPod env alloc pm claim hres] at h
      simp only [Prod.mk.injEq] at h
      exact absurd h.1 (by simp)
    | pod0 :: pod1 :: rest =>
      rw [prepareResourceClaim_multi env alloc pm claim pod0 pod1 rest hres] at h
      simp only [Prod.mk.injEq] at h
      exact absurd h.1 (by simp)
    | [pod0] =>
      cases hg : pmGet pm pod0.UID claim.UID with
      | some pds0 =>
        rw [prepareResourceClaim_hit env alloc pm claim pod0 pds0 hres hg] at h
        simp only [Prod.mk.injEq] at h
        obtain ⟨h1, h2, h3⟩ := h
        injection h1 with h1
        subst h1
        subst h2
        exact prepareResourceClaim_hit env alloc pm claim pod0 pds0 hres hg
      | none =>
        match hdsm : DSMPrepareDevices env alloc claim with
        | (.err e, effs0) =>
          rw [prepareResourceClaim_miss_err env alloc pm claim pod0 e effs0 hres hg hdsm] at h
          simp only [Prod.mk.injEq] at h
          exact absurd h.1 (by simp)
        | (.goPanic msg, effs0) =>
          exfalso
          unfold prepareResourceClaim at h
          rw [hres] at h
          rw [if_neg (by simp), if_neg (by simp)] at h
          simp only [List.headD_cons] at h
          simp only [hg, hdsm] at h
          simp only [Prod.mk.injEq] at h
          exact absurd h.1 (by simp)
        | (.ok pds0, effs0) =>
          cases hset : pmSet pm pod0.UID claim.UID pds0 with
          | error e =>
            exfalso
            unfold prepareResourceClaim at h
            rw [hres] at h
            rw [if_neg (by simp), if_neg (by simp)] at h
            simp only [List.headD_cons] at h
            simp only [hg, hdsm, hset] at h
            simp only [Prod.mk.injEq] at h
            exact absurd h.1 (by simp)
          | ok pm'2 =>
            rw [prepareResourceClaim_miss_ok env alloc pm claim pod0 pds0 effs0 pm'2
              hres hg hdsm hset] at h
            simp only [Prod.mk.injEq] at h
            obtain ⟨h1, h2, h3⟩ := h
            injection h1 with h1
            subst h1
            subst h2
            exact prepareResourceClaim_hit env alloc pm'2 claim pod0 pds0 hres
              (pmGet_after_set pm pod0.UID claim.UID pds0 pm'2 hset)

/-- C3 witness: a checkpointed claim re-prepares to its stored devices with
no writes, and a pod-manager-recorded (pod, claim) pair re-prepares to its
recorded devices with no device-state-manager call. -/
theorem c3_witness :
    DeviceStatePrepare [] c3St c3Claim = (.ok (GetDevices c3Pds), c3St, []) ∧
    prepareResourceClaim c3Env [] c3Pm c3Claim = (.ok (convertDevices c3PdsNri), c3Pm, []) := by
  have h1 := c3_prepare_idempotent.1 [] c3St c3Claim c3Pds (by rfl) (by simp [c3Pds])
  have h2 := c3_prepare_idempotent.2.2.1 c3Env [] c3Pm c3Claim ⟨"pod1", "p"⟩ c3PdsNri rfl (by rfl)
  have h3 := c3_prepare_idempotent.2.1 [] c3St c3Claim _ _ _ h1 (by simp [GetDevices, c3Pds])
  have h4 := c3_prepare_idempotent.2.2.2 c3Env [] c3Pm c3Claim _ _ _ h2
  exact ⟨h1, h2⟩

/-- C7.  Unprepare of an unknown claim is a no-op success in both paths: the
checkpoint-backed `DeviceState.Unprepare` returns no error, deletes no CDI
spec file and writes no checkpoint when the claim UID is absent from the
checkpointed claims, and the pod-manager-path `unprepareResourceClaim`
returns no error and performs no device-state-manager unprepare when the
claim is not in the pod manager. -/
theorem c7_unprepare_unknown_noop :
    (∀ (st : NodeState) (claimUID : String),
      assocLookup st.checkpointClaims claimUID = none →
      DeviceStateUnprepare st claimUID = (.ok (), st, [])) ∧
    (∀ (pm : PodManager) (claimUID : String),
      pmGetByClaim pm claimUID = none →
      unprepareResourceClaimDrv pm claimUID = (none, pm, [])) := by
  constructor
  · intro st claimUID h
    unfold DeviceStateUnprepare
    rw [h]
  · intro pm claimUID h
    unfold unprepareResourceClaimDrv
    rw [h]

/-- C7 witness: unpreparing a never-seen claim UID on an empty node state
and an empty pod manager succeeds and changes nothing. -/
theorem c7_witness :
    DeviceStateUnprepare ⟨[], []⟩ "unknown-claim" = (.ok (), ⟨[], []⟩, []) ∧
    unprepareResourceClaimDrv ⟨[]⟩ "unknown-claim" = (none, ⟨[]⟩, []) :=
  ⟨c7_unprepare_unknown_noop.1 ⟨[], []⟩ "unknown-claim" rfl,
   c7_unprepare_unknown_noop.2 ⟨[]⟩ "unknown-claim" rfl⟩

/-! ### PrepareResourceClaims batch behavior (C4) -/

theorem assocLookup_cons {β : Type} (k k' : String) (v : β) (m : List (String × β)) :
    assocLookup ((k, v) :: m) k' = if k = k' then some v else assocLookup m k' := by
  unfold assocLookup
  rw [List.find?_cons]
  by_cases hk : k = k'
  · simp [hk]
  · have : (decide ((k, v).1 = k')) = false := by simp [hk]
    rw [this, if_neg hk]

theorem prepareClaimsLoop_cons (env : K8sEnv) (alloc : AllocatableDevices) (pm : PodManager)
    (claim : Claim) (rest : List Claim) :
    prepareClaimsLoop env alloc pm (claim :: rest) =
      (match prepareResourceClaim env alloc pm claim with
       | (.goPanic m, _, _) => .goPanic m
       | (res, pm', effs) =>
         match prepareClaimsLoop env alloc pm' rest with
         | .goPanic m => .goPanic m
         | .err e => .err e
         | .ok (resMap, pmF, effsF) =>
           .ok ((if (resMap.find? (fun e => e.1 = claim.UID)).isSome then resMap
                 else (claim.UID, res) :: resMap),
                pmF, effs ++ effsF)) := rfl

theorem prepareClaimsLoop_keys (env : K8sEnv) (alloc : AllocatableDevices) :
    ∀ (claims : List Claim) (pm : PodManager)
      (resMap : List (String × ExecResult (List KDevice))) (pmF : PodManager)
      (effs : List DrvEffect),
      prepareClaimsLoop env alloc pm claims = .ok (resMap, pmF, effs) →
      ∀ kv ∈ resMap, ∃ c ∈ claims, c.UID = kv.1 := by
  intro claims
  induction claims with
  | nil =>
    intro pm resMap pmF effs h kv hkv
    injection h with h
    simp only [Prod.mk.injEq] at h
    rw [← h.1] at hkv
    simp at hkv
  | cons claim rest ih =>
    intro pm resMap pmF effs h kv hkv
    rw [prepareClaimsLoop_cons] at h
    match h1 : prepareResourceClaim env alloc pm claim with
    | (.goPanic m, pm', effs') =>
      simp only [h1] at h
      cases h
    | (.err e, pm', effs') =>
      simp only [h1] at h
      match h2 : prepareClaimsLoop env alloc pm' rest with
      | .goPanic m => simp only [h2] at h; cases h
      | .err e2 => simp only [h2] at h; cases h
      | .ok (resMap2, pmF2, effsF2) =>
        simp only [h2] at h
        injection h with h
        simp only [Prod.mk.injEq] at h
        obtain ⟨hmap, _, _⟩ := h
        rw [← hmap] at hkv
        by_cases hfind : (resMap2.find? (fun e => e.1 = claim.UID)).isSome = true
        · rw [if_pos hfind] at hkv
          rcases ih pm' resMap2 pmF2 effsF2 h2 kv hkv with ⟨c, hc, hcu⟩
          exact ⟨c, List.mem_cons_of_mem claim hc, hcu⟩
        · rw [if_neg hfind] at hkv
          rcases List.mem_cons.mp hkv with hkv0 | hkv'
          · exact ⟨claim, List.mem_cons_self claim rest, by rw [hkv0]⟩
          · rcases ih pm' resMap2 pmF2 effsF2 h2 kv hkv' with ⟨c, hc, hcu⟩
            exact ⟨c, List.mem_cons_of_mem claim hc, hcu⟩
    | (.ok ds, pm', effs') =>
      simp only [h1] at h
      match h2 : prepareClaimsLoop env alloc pm' rest with
      | .goPanic m => simp only [h2] at h; cases h
      | .err e2 => simp only [h2] at h; cases h
      | .ok (resMap2, pmF2, effsF2) =>
        simp only [h2] at h
        injection h with h
        simp only [Prod.mk.injEq] at h
        obtain ⟨hmap, _, _⟩ := h
        rw [← hmap] at hkv
        by_cases hfind : (resMap2.find? (fun e => e.1 = claim.UID)).isSome = true
        · rw [if_pos hfind] at hkv
          rcases ih pm' resMap2 pmF2 effsF2 h2 kv hkv with ⟨c, hc, hcu⟩
          exact ⟨c, List.mem_cons_of_mem claim hc, hcu⟩
        · rw [if_neg hfind] at hkv
          rcases List.mem_cons.mp hkv with hkv0 | hkv'
          · exact ⟨claim, List.mem_cons_self claim rest, by rw [hkv0]⟩
          · rcases ih pm' resMap2 pmF2 effsF2 h2 kv hkv' with ⟨c, hc, hcu⟩
            exact ⟨c, List.mem_cons_of_mem claim hc, hcu⟩

theorem prepareClaimsLoop_cons_ok_inv (env : K8sEnv) (alloc : AllocatableDevices)
    (pm : PodManager) (claim : Claim) (rest : List Claim)
    (resMap : List (String × ExecResult (List KDevice))) (pmF : PodManager)
    (effs : List DrvEffect)
    (h : prepareClaimsLoop env alloc pm (claim :: rest) = .ok (resMap, pmF, effs)) :
    ∃ res pm' effs1 resMap2 effsF,
      prepareResourceClaim env alloc pm claim = (res, pm', effs1) ∧
      prepareClaimsLoop env alloc pm' rest = .ok (resMap2, pmF, effsF) ∧
      effs = effs1 ++ effsF ∧
      resMap = (if (resMap2.find? (fun e => e.1 = claim.UID)).isSome then resMap2
                else (claim.UID, res) :: resMap2) := by
  rw [prepareClaimsLoop_cons] at h
  match h1 : prepareResourceClaim env alloc pm claim with
  | (res, pm', effs1) =>
    cases res with
    | goPanic m =>
      simp only [h1] at h
      cases h
    | err e =>
      simp only [h1] at h
      match h2 : prepareClaimsLoop env alloc pm' rest with
      | .goPanic m => simp only [h2] at h; cases h
      | .err e2 => simp only [h2] at h; cases h
      | .ok (resMap2, pmF2, effsF) =>
        simp only [h2] at h
        injection h with h
        simp only [Prod.mk.injEq] at h
        obtain ⟨hmap, hpm, heff⟩ := h
        exact ⟨.err e, pm', effs1, resMap2, effsF, rfl, hpm ▸ h2, heff.symm, hmap.symm⟩
    | ok ds =>
      simp only [h1] at h
      match h2 : prepareClaimsLoop env alloc pm' rest with
      | .goPanic m => simp only [h2] at h; cases h
      | .err e2 => simp only [h2] at h; cases h
      | .ok (resMap2, pmF2, effsF) =>
        simp only [h2] at h
        injection h with h
        simp only [Prod.mk.injEq] at h
        obtain ⟨hmap, hpm, heff⟩ := h
        exact ⟨.ok ds, pm', effs1, resMap2, effsF, rfl, hpm ▸ h2, heff.symm, hmap.symm⟩

theorem assocLookup_isSome {β : Type} (m : List (String × β)) (k : String) :
    (assocLookup m k).isSome = (m.find? (fun e => e.1 = k)).isSome := by
  unfold assocLookup
  cases m.find? (fun e => e.1 = k) <;> rfl

theorem prepareClaimsLoop_mem_isSome (env : K8sEnv) (alloc : AllocatableDevices) :
    ∀ (claims : List Claim) (pm : PodManager)
      (resMap : List (String × ExecResult (List KDevice))) (pmF : PodManager)
      (effs : List DrvEffect),
      prepareClaimsLoop env alloc pm claims = .ok (resMap, pmF, effs) →
      ∀ c ∈ claims, (assocLookup resMap c.UID).isSome = true := by
  intro claims
  induction claims with
  | nil =>
    intro pm resMap pmF effs h c hc
    simp at hc
  | cons claim rest ih =>
    intro pm resMap pmF effs h c hc
    rcases prepareClaimsLoop_cons_ok_inv env alloc pm claim rest resMap pmF effs h with
      ⟨res, pm', effs1, resMap2, effsF, h1, h2, heff, hmap⟩
    rcases List.mem_cons.mp hc with hc0 | hcr
    · subst hc0
      by_cases hfind : (resMap2.find? (fun e => e.1 = c.UID)).isSome = true
      · rw [hmap, if_pos hfind, assocLookup_isSome]
        exact hfind
      · rw [hmap, if_neg hfind, assocLookup_cons, if_pos rfl]
        rfl
    · have hsome := ih pm' resMap2 pmF effsF h2 c hcr
      by_cases hfind : (resMap2.find? (fun e => e.1 = claim.UID)).isSome = true
      · rw [hmap, if_pos hfind]
        exact hsome
      · rw [hmap, if_neg hfind, assocLookup_cons]
        by_cases hu : claim.UID = c.UID
        · rw [if_pos hu]
          rfl
        · rw [if_neg hu]
          exact hsome

theorem DSMPrepareDevices_no_dsmPrepare (env : K8sEnv) (alloc : AllocatableDevices)
    (claim : Claim) (u : String) :
    DrvEffect.dsmPrepare u ∉ (DSMPrepareDevices env alloc claim).2 := by
  unfold DSMPrepareDevices
  cases prepareDevicesNRI env alloc claim with
  | err e => simp
  | goPanic m => simp
  | ok pds =>
    by_cases hemp : pds.isEmpty
    · simp [hemp]
    · simp [hemp]

theorem prepareResourceClaim_miss_panic (env : K8sEnv) (alloc : AllocatableDevices)
    (pm : PodManager) (claim : Claim) (pod0 : PodReference) (m : String)
    (effs : List DrvEffect)
    (hr : claim.ReservedFor = [pod0]) (hg : pmGet pm pod0.UID claim.UID = none)
    (hdsm : DSMPrepareDevices env alloc claim = (.goPanic m, effs)) :
    prepareResourceClaim env alloc pm claim =
      (.goPanic m, pm, .dsmPrepare claim.UID :: effs) := by
  unfold prepareResourceClaim
  rw [hr]
  rw [if_neg (by simp), if_neg (by simp)]
  simp only [List.headD_cons]
  simp only [hg, hdsm]

theorem prepareResourceClaim_miss_set_err (env : K8sEnv) (alloc : AllocatableDevices)
    (pm : PodManager) (claim : Claim) (pod0 : PodReference) (pds : PreparedDevicesNRI)
    (e : String) (effs : List DrvEffect)
    (hr : claim.ReservedFor = [pod0]) (hg : pmGet pm pod0.UID claim.UID = none)
    (hdsm : DSMPrepareDevices env alloc claim = (.ok pds, effs))
    (hset : pmSet pm pod0.UID claim.UID pds = .error e) :
    prepareResourceClaim env alloc pm claim =
      (.err ("error setting prepared devices for pod " ++ pod0.UID ++
        " into pod manager: " ++ e), pm, .dsmPrepare claim.UID :: effs) := by
  unfold prepareResourceClaim
  rw [hr]
  rw [if_neg (by simp), if_neg (by simp)]
  simp only [List.headD_cons]
  simp only [hg, hdsm, hset]

theorem prepareResourceClaim_effects (env : K8sEnv) (alloc : AllocatableDevices)
    (pm : PodManager) (claim : Claim) (res : ExecResult (List KDevice)) (pm' : PodManager)
    (effs : List DrvEffect) (u : String)
    (h : prepareResourceClaim env alloc pm claim = (res, pm', effs))
    (hmem : DrvEffect.dsmPrepare u ∈ effs) :
    u = claim.UID ∧ claim.ReservedFor.length = 1 := by
  match hres : claim.ReservedFor with
  | [] =>
    rw [prepareResourceClaim_noPod env alloc pm claim hres] at h
    simp only [Prod.mk.injEq] at h
    rw [← h.2.2] at hmem
    cases hmem
  | pod0 :: pod1 :: tail =>
    rw [prepareResourceClaim_multi env alloc pm claim pod0 pod1 tail hres] at h
    simp only [Prod.mk.injEq] at h
    rw [← h.2.2] at hmem
    cases hmem
  | [pod0] =>
    refine ⟨?_, by rfl⟩
    cases hg : pmGet pm pod0.UID claim.UID with
    | some pds =>
      rw [prepareResourceClaim_hit env alloc pm claim pod0 pds hres hg] at h
      simp only [Prod.mk.injEq] at h
      rw [← h.2.2] at hmem
      cases hmem
    | none =>
      match hdsm : DSMPrepareDevices env alloc claim with
      | (.err e, effs0) =>
        rw [prepareResourceClaim_miss_err env alloc pm claim pod0 e effs0 hres hg hdsm] at h
        simp only [Prod.mk.injEq] at h
        rw [← h.2.2] at hmem
        rcases List.mem_cons.mp hmem with h0 | h0
        · injection h0 with h0
        · exfalso
          have := DSMPrepareDevices_no_dsmPrepare env alloc claim u
          rw [hdsm] at this
          exact this h0
      | (.goPanic m, effs0) =>
        rw [prepareResourceClaim_miss_panic env alloc pm claim pod0 m effs0 hres hg hdsm] at h
        simp only [Prod.mk.injEq] at h
        rw [← h.2.2] at hmem
        rcases List.mem_cons.mp hmem with h0 | h0
        · injection h0 with h0
        · exfalso
          have := DSMPrepareDevices_no_dsmPrepare env alloc claim u
          rw [hdsm] at this
          exact this h0
      | (.ok pds, effs0) =>
        cases hset : pmSet pm pod0.UID claim.UID pds with
        | error e =>
          rw [prepareResourceClaim_miss_set_err env alloc pm claim pod0 pds e effs0
            hres hg hdsm hset] at h
          simp only [Prod.mk.injEq] at h
          rw [← h.2.2] at hmem
          rcases List.mem_cons.mp hmem with h0 | h0
          · injection h0 with h0
          · exfalso
            have := DSMPrepareDevices_no_dsmPrepare env alloc claim u
            rw [hdsm] at this
            exact this h0
        | ok pm2 =>
          rw [prepareResourceClaim_miss_ok env alloc pm claim pod0 pds effs0 pm2
            hres hg hdsm hset] at h
          simp only [Prod.mk.injEq] at h
          rw [← h.2.2] at hmem
          rcases List.mem_cons.mp hmem with h0 | h0
          · injection h0 with h0
          · exfalso
            have := DSMPrepareDevices_no_dsmPrepare env alloc claim u
            rw [hdsm] at this
            exact this h0

theorem prepareClaimsLoop_effects (env : K8sEnv) (alloc : AllocatableDevices) :
    ∀ (claims : List Claim) (pm : PodManager)
      (resMap : List (String × ExecResult (List KDevice))) (pmF : PodManager)
      (effs : List DrvEffect) (u : String),
      prepareClaimsLoop env alloc pm claims = .ok (resMap, pmF, effs) →
      DrvEffect.dsmPrepare u ∈ effs →
      ∃ c ∈ claims, c.UID = u ∧ c.ReservedFor.length = 1 := by
  intro claims
  induction claims with
  | nil =>
    intro pm resMap pmF effs u h hmem
    injection h with h
    simp only [Prod.mk.injEq] at h
    rw [← h.2.2] at hmem
    cases hmem
  | cons claim rest ih =>
    intro pm resMap pmF effs u h hmem
    rcases prepareClaimsLoop_cons_ok_inv env alloc pm claim rest resMap pmF effs h with
      ⟨res, pm', effs1, resMap2, effsF, h1, h2, heff, hmap⟩
    rw [heff] at hmem
    rcases List.mem_append.mp hmem with hm1 | hm2
    · have := prepareResourceClaim_effects env alloc pm claim res pm' effs1 u h1 hm1
      exact ⟨claim, List.mem_cons_self claim rest, this.1.symm, this.2⟩
    · rcases ih pm' resMap2 pmF effsF u h2 hm2 with ⟨c, hc, hcu, hclen⟩
      exact ⟨c, List.mem_cons_of_mem claim hc, hcu, hclen⟩

theorem prepareClaimsLoop_guarded_lookup (env : K8sEnv) (alloc : AllocatableDevices) :
    ∀ (claims : List Claim) (pm : PodManager)
      (resMap : List (String × ExecResult (List KDevice))) (pmF : PodManager)
      (effs : List DrvEffect) (claim : Claim),
      prepareClaimsLoop env alloc pm claims = .ok (resMap, pmF, effs) →
      claim ∈ claims → claim.ReservedFor.length ≠ 1 →
      (claims.map Claim.UID).Nodup →
      assocLookup resMap claim.UID =
        some (.err (if claim.ReservedFor.length = 0 then noPodInfoMsg claim
                    else multiplePodsMsg claim)) := by
  intro claims
  induction claims with
  | nil =>
    intro pm resMap pmF effs claim h hmem
    simp at hmem
  | cons head rest ih =>
    intro pm resMap pmF effs claim h hmem hlen hnodup
    rcases prepareClaimsLoop_cons_ok_inv env alloc pm head rest resMap pmF effs h with
      ⟨res, pm', effs1, resMap2, effsF, h1, h2, heff, hmap⟩
    have hnodup' : (rest.map Claim.UID).Nodup := by
      rw [List.map_cons] at hnodup
      exact (List.nodup_cons.mp hnodup).2
    have hheadfresh : head.UID ∉ rest.map Claim.UID := by
      rw [List.map_cons] at hnodup
      exact (List.nodup_cons.mp hnodup).1
    rcases List.mem_cons.mp hmem with hc0 | hcr
    · subst hc0
      have hres : res = .err (if claim.ReservedFor.length = 0 then noPodInfoMsg claim
          else multiplePodsMsg claim) := by
        match hrf : claim.ReservedFor with
        | [] =>
          rw [prepareResourceClaim_noPod env alloc pm claim hrf] at h1
          simp only [Prod.mk.injEq] at h1
          rw [← h1.1]
          rfl
        | [pod0] =>
          exfalso
          apply hlen
          rw [hrf]
          rfl
        | pod0 :: pod1 :: tail =>
          rw [prepareResourceClaim_multi env alloc pm claim pod0 pod1 tail hrf] at h1
          simp only [Prod.mk.injEq] at h1
          rw [← h1.1]
          simp
      have hfind : (resMap2.find? (fun e => e.1 = claim.UID)).isSome = false := by
        cases hf : (resMap2.find? (fun e => e.1 = claim.UID)).isSome with
        | false => rfl
        | true =>
          exfalso
          rw [List.find?_isSome] at hf
          rcases hf with ⟨kv, hkv, hp⟩
          simp only [decide_eq_true_eq] at hp
          rcases prepareClaimsLoop_keys env alloc rest pm' resMap2 pmF effsF h2 kv hkv with
            ⟨c, hc, hcu⟩
          apply hheadfresh
          exact List.mem_map.mpr ⟨c, hc, hcu.trans hp⟩
      rw [hmap, if_neg (by rw [hfind]; simp), assocLookup_cons, if_pos rfl, hres]
    · have hlook := ih pm' resMap2 pmF effsF claim h2 hcr hlen hnodup'
      by_cases hfind : (resMap2.find? (fun e => e.1 = head.UID)).isSome = true
      · rw [hmap, if_pos hfind]
        exact hlook
      · have hne : head.UID ≠ claim.UID := by
          intro he
          apply hheadfresh
          rw [he]
          exact List.mem_map.mpr ⟨claim, hcr, rfl⟩
        rw [hmap, if_neg hfind, assocLookup_cons, if_neg hne]
        exact hlook

/-- C4.  For every claim with zero or more than one reserving pod in a batch
handled by `Driver.PrepareResourceClaims` (pkg/driver/dra_hook.go): the
batch's function-level error is nil; the claim's per-claim result is the
NoPodInfo (zero) or MultiplePodsUnsupported (more than one) error; the
device-state manager's prepare is never invoked for that claim; and every
claim of the batch gets a result entry. -/
theorem c4_no_or_multiple_pods (env : K8sEnv) (alloc : AllocatableDevices) (pm : PodManager)
    (claims : List Claim) (claim : Claim)
    (resMap : List (String × ExecResult (List KDevice))) (pmF : PodManager)
    (effs : List DrvEffect) (topErr : Option String)
    (hmem : claim ∈ claims) (hlen : claim.ReservedFor.length ≠ 1)
    (hnodup : (claims.map Claim.UID).Nodup)
    (hrun : PrepareResourceClaims env alloc pm claims = .ok ((resMap, pmF, effs), topErr)) :
    topErr = none ∧
    assocLookup resMap claim.UID =
      some (.err (if claim.ReservedFor.length = 0 then noPodInfoMsg claim
                  else multiplePodsMsg claim)) ∧
    DrvEffect.dsmPrepare claim.UID ∉ effs ∧
    (∀ c ∈ claims, (assocLookup resMap c.UID).isSome = true) := by
  unfold PrepareResourceClaims at hrun
  match hloop : prepareClaimsLoop env alloc pm claims with
  | .err e => rw [hloop] at hrun; cases hrun
  | .goPanic m => rw [hloop] at hrun; cases hrun
  | .ok (resMap2, pmF2, effs2) =>
    rw [hloop] at hrun
    injection hrun with hrun
    simp only [Prod.mk.injEq] at hrun
    obtain ⟨⟨hm1, hm2, hm3⟩, hm4⟩ := hrun
    subst hm1
    subst hm2
    subst hm3
    refine ⟨hm4.symm, ?_, ?_, ?_⟩
    · exact prepareClaimsLoop_guarded_lookup env alloc claims pm resMap2 pmF2 effs2 claim
        hloop hmem hlen hnodup
    · intro habs
      rcases prepareClaimsLoop_effects env alloc claims pm resMap2 pmF2 effs2 claim.UID
        hloop habs with ⟨c, hc, hcu, hclen⟩
      have : c = claim := List.inj_on_of_nodup_map hnodup hc hmem hcu
      rw [this] at hclen
      exact hlen hclen
    · exact prepareClaimsLoop_mem_isSome env alloc claims pm resMap2 pmF2 effs2 hloop

/-- C4 witness: a batch with one zero-pod claim and one two-pod claim — both
get per-claim error results, the top-level error is nil, and no
device-state-manager prepare happens. -/
theorem c4_witness :
    PrepareResourceClaims c3Env [] ⟨[]⟩ [c4C0, c4C2] =
      .ok (([("u0", .err (noPodInfoMsg c4C0)), ("u2", .err (multiplePodsMsg c4C2))],
        ⟨[]⟩, []), none) ∧
    assocLookup ([("u0", .err (noPodInfoMsg c4C0)),
      ("u2", .err (multiplePodsMsg c4C2))] : List (String × ExecResult (List KDevice))) "u0" =
        some (.err (noPodInfoMsg c4C0)) ∧
    DrvEffect.dsmPrepare "u0" ∉ ([] : List DrvEffect) := by
  have h := c4_no_or_multiple_pods c3Env [] ⟨[]⟩ [c4C0, c4C2] c4C0
    [("u0", .err (noPodInfoMsg c4C0)), ("u2", .err (multiplePodsMsg c4C2))] ⟨[]⟩ [] none
    (List.mem_cons_self _ _) (by decide) (by decide) (by rfl)
  refine ⟨by rfl, ?_, h.2.2.1⟩
  have h21 := h.2.1
  simpa using h21

/-! ### CDI container-edit environment variables (C6) -/

theorem assocLookup_insert_ne {β : Type} (m : List (String × β)) (k k' : String) (v : β)
    (h : k ≠ k') : assocLookup (assocInsert m k v) k' = assocLookup m k' := by
  induction m with
  | nil =>
    unfold assocInsert assocLookup
    rw [List.find?_cons]
    have : (decide ((k, v).1 = k')) = false := by simp [h]
    rw [this]
  | cons e rest ih =>
    unfold assocInsert
    by_cases hk : e.1 = k
    · rw [if_pos hk]
      unfold assocLookup
      rw [List.find?_cons, List.find?_cons]
      have h1 : (decide ((k, v).1 = k')) = false := by simp [h]
      have h2 : (decide (e.1 = k')) = false := by simp [hk ▸ h]
      rw [h1, h2]
    · rw [if_neg hk]
      unfold assocLookup
      rw [List.find?_cons, List.find?_cons]
      cases he : (decide (e.1 = k')) with
      | true => rfl
      | false => exact ih

theorem applyConfigLegacyLoop_spec (alloc : AllocatableDevices) :
    ∀ (results : List AllocResult) (m edits : List (String × List String)),
      applyConfigLegacyLoop alloc results m = .ok edits →
      (∀ d, (∃ r ∈ results, r.Device = d) →
        assocLookup edits d = some (legacyEnvList alloc d)) ∧
      (∀ k, (∀ r ∈ results, r.Device ≠ k) → assocLookup edits k = assocLookup m k) := by
  intro results
  induction results with
  | nil =>
    intro m edits h
    injection h with h
    subst h
    exact ⟨fun d hd => absurd hd (by simp), fun k _ => rfl⟩
  | cons r rest ih =>
    intro m edits h
    unfold applyConfigLegacyLoop at h
    cases hlook : lookupDevice alloc r.Device with
    | none => rw [hlook] at h; cases h
    | some info =>
      rw [hlook] at h
      rcases ih _ edits h with ⟨hmem, hframe⟩
      constructor
      · intro d hd
        rcases hd with ⟨r0, hr0, hdev⟩
        rcases List.mem_cons.mp hr0 with hr0h | hr0t
        · subst hr0h
          subst hdev
          by_cases hrest : ∃ r' ∈ rest, r'.Device = r0.Device
          · exact hmem r0.Device hrest
          · have := hframe r0.Device (by
              intro r' hr' habs
              exact hrest ⟨r', hr', habs⟩)
            rw [this, assocLookup_insert_self]
            unfold legacyEnvList
            rw [hlook]
        · exact hmem d ⟨r0, hr0t, hdev⟩
      · intro k hk
        have hne : r.Device ≠ k := hk r (List.mem_cons_self r rest)
        rw [hframe k (fun r' hr' => hk r' (List.mem_cons_of_mem r hr'))]
        exact assocLookup_insert_ne m r.Device k _ hne

theorem applyConfigNRILoop_spec (env : K8sEnv) (alloc : AllocatableDevices) (ns : String)
    (vfConfig : VfConfig) :
    ∀ (results : List AllocResult)
      (acc : List (String × List String) × List (String × String) × List (String × String))
      (edits : List (String × List String)) (ncs ifs : List (String × String)),
      applyConfigNRILoop env alloc ns vfConfig results acc = .ok (edits, ncs, ifs) →
      (∀ d, (∃ r ∈ results, r.Device = d) →
        assocLookup edits d = some (nriEnvList alloc vfConfig d)) ∧
      (∀ k, (∀ r ∈ results, r.Device ≠ k) → assocLookup edits k = assocLookup acc.1 k) := by
  intro results
  induction results with
  | nil =>
    intro acc edits ncs ifs h
    injection h with h
    rw [Prod.ext_iff] at h
    obtain ⟨h1, _⟩ := h
    simp only at h1
    subst h1
    exact ⟨fun d hd => absurd hd (by simp), fun k _ => rfl⟩
  | cons r rest ih =>
    intro acc edits ncs ifs h
    unfold applyConfigNRILoop at h
    cases hlook : lookupDevice alloc r.Device with
    | none => simp only [hlook] at h; cases h
    | some info =>
      simp only [hlook] at h
      cases hnad : env.getNetAttachDef vfConfig.NetAttachDefName ns with
      | error e => simp only [hnad] at h; cases h
      | ok nadConfig =>
        simp only [hnad] at h
        cases hconv : AddDeviceIDToNetConf nadConfig info.pciAddress with
        | error e => simp only [hconv] at h; cases h
        | ok netConf =>
          simp only [hconv] at h
          rcases ih _ edits ncs ifs h with ⟨hmem, hframe⟩
          constructor
          · intro d hd
            rcases hd with ⟨r0, hr0, hdev⟩
            rcases List.mem_cons.mp hr0 with hr0h | hr0t
            · subst hr0h
              subst hdev
              by_cases hrest : ∃ r' ∈ rest, r'.Device = r0.Device
              · exact hmem r0.Device hrest
              · have := hframe r0.Device (by
                  intro r' hr' habs
                  exact hrest ⟨r', hr', habs⟩)
                rw [this]
                show assocLookup (assocInsert acc.1 r0.Device _) r0.Device = _
                rw [assocLookup_insert_self]
                unfold nriEnvList
                rw [hlook]
            · exact hmem d ⟨r0, hr0t, hdev⟩
          · intro k hk
            have hne : r.Device ≠ k := hk r (List.mem_cons_self r rest)
            rw [hframe k (fun r' hr' => hk r' (List.mem_cons_of_mem r hr'))]
            exact assocLookup_insert_ne acc.1 r.Device k _ hne

/-- C6 counterexample: in the NRI-integrated path the variable name uses
the catalog device name with `-` replaced by `_`, so the edits for the
catalog device `0000-08-10-0` do not contain
`VF_DEVICE_0000-08-10-0=<pciAddress>` (the claim's shape) but
`VF_DEVICE_0000_08_10_0=<pciAddress>`. -/
theorem c6_counterexample :
    ∃ edits ncs ifs,
      applyConfigNRI c3Env [("0000-08-10-0", ⟨"8086", "1572", "0000:08:10.0", "ens1", "legacy"⟩)]
        "ns" ⟨"net1", "eth1"⟩ [⟨"a", "pool", "0000-08-10-0"⟩] = .ok (edits, ncs, ifs) ∧
      "VF_DEVICE_0000-08-10-0=0000:08:10.0" ∉ (assocLookup edits "0000-08-10-0").getD [] ∧
      "VF_DEVICE_0000_08_10_0=0000:08:10.0" ∈ (assocLookup edits "0000-08-10-0").getD [] := by
  refine ⟨_, _, _, rfl, ?_, ?_⟩
  · decide
  · decide

/-- C6 (amended).  The edits generated by the checkpoint-backed
`DeviceState.applyConfig` contain, per allocation result,
`VF_DEVICE_<deviceName>=<pciAddress>` with the catalog device name verbatim;
the edits generated by the NRI-integrated `DeviceStateManager.applyConfig`
contain `VF_DEVICE_<name>=<pciAddress>` where the name is the catalog device
name with every `-` replaced by `_`, together with
`NET_ATTACH_DEF_NAME=<NetAttachDefName>`; in both, the PCI address is the
device's `pciAddress` catalog attribute. -/
theorem c6_env_vars :
    (∀ (alloc : AllocatableDevices) (config : VfConfig) (results : List AllocResult)
      (edits : List (String × List String)),
      applyConfigLegacy alloc config results = .ok edits →
      ∀ r ∈ results, ∀ info, lookupDevice alloc r.Device = some info →
        "VF_DEVICE_" ++ r.Device ++ "=" ++ info.pciAddress ∈
          (assocLookup edits r.Device).getD []) ∧
    (∀ (env : K8sEnv) (alloc : AllocatableDevices) (ns : String) (config : VfConfig)
      (results : List AllocResult) (edits : List (String × List String))
      (ncs ifs : List (String × String)),
      applyConfigNRI env alloc ns config results = .ok (edits, ncs, ifs) →
      ∀ r ∈ results, ∀ info, lookupDevice alloc r.Device = some info →
        ("VF_DEVICE_" ++ envDeviceName r.Device ++ "=" ++ info.pciAddress ∈
          (assocLookup edits r.Device).getD []) ∧
        ("NET_ATTACH_DEF_NAME=" ++ config.NetAttachDefName ∈
          (assocLookup edits r.Device).getD [])) := by
  constructor
  · intro alloc config results edits h r hr info hinfo
    have := (applyConfigLegacyLoop_spec alloc results [] edits h).1 r.Device ⟨r, hr, rfl⟩
    rw [this]
    unfold legacyEnvList
    rw [hinfo]
    simp
  · intro env alloc ns config results edits ncs ifs h r hr info hinfo
    have := (applyConfigNRILoop_spec env alloc ns config results ([], [], []) edits ncs ifs
      h).1 r.Device ⟨r, hr, rfl⟩
    rw [this]
    unfold nriEnvList
    rw [hinfo]
    constructor
    · simp
    · simp

/-- C6 witness: for the concrete device `dev-1` with PCI address `p:1`, the
legacy edits contain `VF_DEVICE_dev-1=p:1` and the NRI edits contain
`VF_DEVICE_dev_1=p:1` and `NET_ATTACH_DEF_NAME=net1`. -/
theorem c6_witness :
    "VF_DEVICE_dev-1=p:1" ∈
      (assocLookup [("dev-1", ["VF_DEVICE_dev-1=p:1"])] "dev-1").getD [] ∧
    ("VF_DEVICE_dev_1=p:1" ∈
      (assocLookup [("dev-1", ["VF_DEVICE_dev_1=p:1", "NET_ATTACH_DEF_NAME=net1"])]
        "dev-1").getD []) := by
  constructor
  · exact c6_env_vars.1 [("dev-1", ⟨"v", "d", "p:1", "pf", "legacy"⟩)] ⟨"net1", "eth1"⟩
      [⟨"a", "pool", "dev-1"⟩] [("dev-1", ["VF_DEVICE_dev-1=p:1"])] (by rfl)
      ⟨"a", "pool", "dev-1"⟩ (List.mem_cons_self _ _) ⟨"v", "d", "p:1", "pf", "legacy"⟩ rfl
  · exact (c6_env_vars.2 c3Env [("dev-1", ⟨"v", "d", "p:1", "pf", "legacy"⟩)] "ns"
      ⟨"net1", "eth1"⟩ [⟨"a", "pool", "dev-1"⟩]
      [("dev-1", ["VF_DEVICE_dev_1=p:1", "NET_ATTACH_DEF_NAME=net1"])]
      [("dev-1", "cfg+deviceID=p:1")] [("dev-1", "eth1")] (by rfl)
      ⟨"a", "pool", "dev-1"⟩ (List.mem_cons_self _ _) ⟨"v", "d", "p:1", "pf", "legacy"⟩ rfl).1

/-! ### NRI sandbox hooks (C9) -/

/-- C9.  For a pod sandbox whose pod has an entry with at least one prepared
device in the pod manager but no resolvable network-namespace path,
`Plugin.RunPodSandbox` succeeds without any CNI call while
`Plugin.StopPodSandbox` fails without any CNI call; and for a pod with no
prepared devices both hooks succeed without any CNI call. -/
theorem c9_no_network_namespace (env : CNIEnv) (pm : PodManager) (pod : Sandbox)
    (hfound : (pmGetDevicesByPodUID pm pod.Uid).2 = true)
    (hnet : getNetworkNamespace pod = "") :
    RunPodSandbox env pm pod = (none, []) ∧
    StopPodSandbox env pm pod =
      (some ("error getting network namespace for pod '" ++ pod.Name ++ "' in namespace '" ++
        pod.Ns ++ "'"), []) ∧
    (∀ (pm2 : PodManager) (pod2 : Sandbox),
      (pmGetDevicesByPodUID pm2 pod2.Uid).2 = false →
      RunPodSandbox env pm2 pod2 = (none, []) ∧ StopPodSandbox env pm2 pod2 = (none, [])) := by
  refine ⟨?_, ?_, ?_⟩
  · unfold RunPodSandbox
    simp [hfound, hnet]
  · unfold StopPodSandbox
    simp [hfound, hnet]
  · intro pm2 pod2 hnf
    constructor
    · unfold RunPodSandbox
      simp [hnf]
    · unfold StopPodSandbox
      simp [hnf]

/-- C9 witness: a pod with one prepared device and only a PID namespace
declared — run succeeds with no CNI call, stop errors with no CNI call. -/
theorem c9_witness :
    RunPodSandbox ⟨fun _ => .ok (), fun _ => .ok ()⟩ c3Pm
      ⟨"pod1", "p", "ns", "sb1", [("pid", "/proc/1/ns/pid")]⟩ = (none, []) ∧
    StopPodSandbox ⟨fun _ => .ok (), fun _ => .ok ()⟩ c3Pm
      ⟨"pod1", "p", "ns", "sb1", [("pid", "/proc/1/ns/pid")]⟩ =
      (some "error getting network namespace for pod 'p' in namespace 'ns'", []) := by
  have h := c9_no_network_namespace ⟨fun _ => .ok (), fun _ => .ok ()⟩ c3Pm
    ⟨"pod1", "p", "ns", "sb1", [("pid", "/proc/1/ns/pid")]⟩ (by decide) (by decide)
  exact ⟨h.1, h.2.1⟩

/-! ### Unguarded ReservedFor index in the NRI prepare (C10) -/

theorem getConfigResultsMap_ok_sum (alloc : AllocatableDevices)
    (configs : List OpaqueDeviceConfig) (results : List AllocResult)
    (cfgMap : List ((Nat × OpaqueDeviceConfig) × List AllocResult))
    (h : getConfigResultsMap alloc configs results = .ok cfgMap) :
    ((cfgMap.map (fun p => p.2.length)).sum = results.length) := by
  unfold getConfigResultsMap at h
  match hf : results.find? (fun r => (lookupDevice alloc r.Device).isNone) with
  | some r =>
    rw [hf] at h
    cases h
  | none =>
    rw [hf] at h
    injection h with h
    rw [← h]
    rw [sum_filter_nonempty]
    set cfgs := withDefaultConfig configs with hcfgs
    have hmm : ((cfgs.enum.map
        (fun ic => (ic, results.filter (fun r => lastMatchIdx cfgs r.Request = some ic.1)))).map
          (fun p => p.2.length)) =
        cfgs.enum.map
          (fun ic =>
            (results.filter (fun r => lastMatchIdx cfgs r.Request = some ic.1)).length) := by
      rw [List.map_map]
      rfl
    rw [hmm, enum_map_on_fst cfgs
      (fun i => (results.filter (fun r => lastMatchIdx cfgs r.Request = some i)).length)]
    apply filter_partition_length
    intro r _
    have := lastMatchIdx_isSome_of_head defaultConfigEntry configs r.Request
      (cfgMatches_default r.Request)
    cases hl : lastMatchIdx cfgs r.Request with
    | none =>
      exfalso
      have hl' : lastMatchIdx (defaultConfigEntry :: configs) r.Request = none := hl
      rw [hl'] at this
      cases this
    | some j => exact ⟨j, rfl⟩

/-- C10 counterexample: an allocated claim with one allocatable allocation
result and an empty ReservedFor list, but with no opaque config, fails
config validation (its catch-all default config has no
network-attachment-definition name) and so returns an ordinary error, not
the out-of-bounds panic the claim asserts for every such claim. -/
theorem c10_counterexample :
    prepareDevicesNRI c3Env [("dev1", ⟨"v", "d", "p1", "pf", "legacy"⟩)]
      ⟨"c", "ns", "u", some ⟨[⟨"a", "pool", "dev1"⟩], []⟩, []⟩ =
      .err ("error validating Vf config: invalid config: missing netAttachDefName") ∧
    (∀ m, prepareDevicesNRI c3Env [("dev1", ⟨"v", "d", "p1", "pf", "legacy"⟩)]
      ⟨"c", "ns", "u", some ⟨[⟨"a", "pool", "dev1"⟩], []⟩, []⟩ ≠ .goPanic m) := by
  have h : prepareDevicesNRI c3Env [("dev1", ⟨"v", "d", "p1", "pf", "legacy"⟩)]
      ⟨"c", "ns", "u", some ⟨[⟨"a", "pool", "dev1"⟩], []⟩, []⟩ =
      .err ("error validating Vf config: invalid config: missing netAttachDefName") := by rfl
  exact ⟨h, by rw [h]; intro m hm; cases hm⟩

/-- C10 (amended).  `DeviceStateManager.prepareDevices` reads
`claim.Status.ReservedFor[0]` with no length check while building each
prepared device, so for every allocated claim with a non-empty allocatable
result list and an empty ReservedFor list whose config decoding, grouping
and per-config processing (normalize, validate, net-attach-def resolution)
all succeed, the index-0 access is out of bounds — a Go runtime panic
rather than a returned error; a claim whose config processing fails instead
returns an error before the access; and the length guard exists only in the
driver's `prepareResourceClaim` caller, which rejects an empty ReservedFor
with the NoPodInfo error before calling the manager. -/
theorem c10_reservedfor_panic (env : K8sEnv) (alloc : AllocatableDevices)
    (claim : Claim) (allocation : Allocation) (configs : List OpaqueDeviceConfig)
    (cfgMap : List ((Nat × OpaqueDeviceConfig) × List AllocResult))
    (maps : List (String × List String) × List (String × String) × List (String × String))
    (ha : claim.Allocation = some allocation)
    (hres : claim.ReservedFor = [])
    (hconf : GetOpaqueDeviceConfigs DriverName allocation.Config = .ok configs)
    (hmap : getConfigResultsMap alloc configs allocation.Results = .ok cfgMap)
    (hproc : processConfigsNRI env alloc claim.Namespace cfgMap = .ok maps)
    (hne : allocation.Results ≠ []) :
    prepareDevicesNRI env alloc claim =
      .goPanic "runtime error: index out of range [0] with length 0" ∧
    (∀ pm : PodManager, prepareResourceClaim env alloc pm claim =
      (.err (noPodInfoMsg claim), pm, [])) := by
  constructor
  · obtain ⟨edits, ncs, ifs⟩ := maps
    unfold prepareDevicesNRI
    simp only [ha, hconf, hmap, hproc]
    unfold buildPreparedNRI
    have hsum := getConfigResultsMap_ok_sum alloc configs allocation.Results cfgMap hmap
    have hlen : (cfgMap.flatMap (fun p => p.2)).length = allocation.Results.length := by
      rw [List.length_flatMap]
      exact hsum
    cases hflat : cfgMap.flatMap (fun p => p.2) with
    | nil =>
      exfalso
      rw [hflat] at hlen
      exact hne (List.length_eq_zero.mp hlen.symm)
    | cons a as =>
      simp only [hflat, hres]
  · intro pm
    exact prepareResourceClaim_noPod env alloc pm claim hres

/-- C10 witness: a claim with a valid scoped config, one allocatable result
and an empty ReservedFor list panics in `prepareDevices`, while the driver
caller rejects it with NoPodInfo. -/
theorem c10_witness :
    prepareDevicesNRI c3Env [("dev1", ⟨"v", "d", "p1", "pf", "legacy"⟩)] c10Claim =
      .goPanic "runtime error: index out of range [0] with length 0" ∧
    prepareResourceClaim c3Env [("dev1", ⟨"v", "d", "p1", "pf", "legacy"⟩)] ⟨[]⟩ c10Claim =
      (.err (noPodInfoMsg c10Claim), ⟨[]⟩, []) := by
  have h := c10_reservedfor_panic c3Env [("dev1", ⟨"v", "d", "p1", "pf", "legacy"⟩)]
    c10Claim ⟨[⟨"a", "pool", "dev1"⟩], [⟨["a"], DriverName, .ok (.vf ⟨"net1", "eth1"⟩)⟩]⟩
    [⟨["a"], .vf ⟨"net1", "eth1"⟩⟩]
    [((1, ⟨["a"], .vf ⟨"net1", "eth1"⟩⟩), [⟨"a", "pool", "dev1"⟩])]
    ([("dev1", ["VF_DEVICE_dev1=p1", "NET_ATTACH_DEF_NAME=net1"])],
     [("dev1", "cfg+deviceID=p1")], [("dev1", "eth1")])
    rfl rfl (by rfl) (by rfl) (by rfl) (by simp)
  exact ⟨h.1, h.2 ⟨[]⟩⟩

/-! ### Checkpoint serialization and checksum (C5)

The modelled checksum is 32-bit FNV-1a.  Its one-step function
`fnvStep h b = ((h ^^^ b) * prime) % 2^32` is injective in `h` and in `b`
below `2^32` because xor is cancellative and the prime is odd, hence
invertible modulo `2^32`; consequently two encodings of equal length that
differ in exactly one byte have different checksums. -/

theorem fnvStep_lt (h b : Nat) : fnvStep h b < 2 ^ 32 :=
  Nat.mod_lt _ (by norm_num)

theorem foldl_fnvStep_lt (l : List Nat) (h : Nat) (hh : h < 2 ^ 32) :
    l.foldl fnvStep h < 2 ^ 32 := by
  induction l generalizing h with
  | nil => exact hh
  | cons b rest ih => exact ih (fnvStep h b) (fnvStep_lt h b)

theorem fnvCoprime : Nat.gcd (2 ^ 32) 16777619 = 1 := by
  have h1 : Nat.Coprime 16777619 (2 ^ 32) :=
    (Nat.coprime_pow_right_iff (by norm_num) 16777619 2).mpr
      (Nat.coprime_two_right.mpr (Nat.odd_iff.mpr (by norm_num)))
  exact h1.symm

theorem fnvStep_inj_left (h₁ h₂ b : Nat) (hh₁ : h₁ < 2 ^ 32) (hh₂ : h₂ < 2 ^ 32)
    (hb : b < 2 ^ 32) (he : fnvStep h₁ b = fnvStep h₂ b) : h₁ = h₂ := by
  have hmod : (h₁ ^^^ b) * fnvPrime ≡ (h₂ ^^^ b) * fnvPrime [MOD 2 ^ 32] := he
  have hx := Nat.ModEq.cancel_right_of_coprime fnvCoprime hmod
  have hx1 : h₁ ^^^ b < 2 ^ 32 := Nat.xor_lt_two_pow hh₁ hb
  have hx2 : h₂ ^^^ b < 2 ^ 32 := Nat.xor_lt_two_pow hh₂ hb
  have heq : h₁ ^^^ b = h₂ ^^^ b := by
    have h3 : (h₁ ^^^ b) % 2 ^ 32 = (h₂ ^^^ b) % 2 ^ 32 := hx
    rw [Nat.mod_eq_of_lt hx1, Nat.mod_eq_of_lt hx2] at h3
    exact h3
  calc h₁ = h₁ ^^^ b ^^^ b := (Nat.xor_cancel_right b h₁).symm
    _ = h₂ ^^^ b ^^^ b := by rw [heq]
    _ = h₂ := Nat.xor_cancel_right b h₂

theorem fnvStep_inj_right (h b₁ b₂ : Nat) (hh : h < 2 ^ 32) (hb₁ : b₁ < 2 ^ 32)
    (hb₂ : b₂ < 2 ^ 32) (he : fnvStep h b₁ = fnvStep h b₂) : b₁ = b₂ := by
  have hmod : (h ^^^ b₁) * fnvPrime ≡ (h ^^^ b₂) * fnvPrime [MOD 2 ^ 32] := he
  have hx := Nat.ModEq.cancel_right_of_coprime fnvCoprime hmod
  have hx1 : h ^^^ b₁ < 2 ^ 32 := Nat.xor_lt_two_pow hh hb₁
  have hx2 : h ^^^ b₂ < 2 ^ 32 := Nat.xor_lt_two_pow hh hb₂
  have heq : h ^^^ b₁ = h ^^^ b₂ := by
    have h3 : (h ^^^ b₁) % 2 ^ 32 = (h ^^^ b₂) % 2 ^ 32 := hx
    rw [Nat.mod_eq_of_lt hx1, Nat.mod_eq_of_lt hx2] at h3
    exact h3
  calc b₁ = h ^^^ (h ^^^ b₁) := (Nat.xor_cancel_left h b₁).symm
    _ = h ^^^ (h ^^^ b₂) := by rw [heq]
    _ = b₂ := Nat.xor_cancel_left h b₂

theorem foldl_fnvStep_inj (l : List Nat) (hl : ∀ x ∈ l, x < 2 ^ 32) :
    ∀ h₁ h₂, h₁ < 2 ^ 32 → h₂ < 2 ^ 32 →
      l.foldl fnvStep h₁ = l.foldl fnvStep h₂ → h₁ = h₂ := by
  induction l with
  | nil =>
    intro h₁ h₂ _ _ he
    exact he
  | cons b rest ih =>
    intro h₁ h₂ hh₁ hh₂ he
    have hb : b < 2 ^ 32 := hl b (List.mem_cons_self b rest)
    have := ih (fun x hx => hl x (List.mem_cons_of_mem b hx))
      (fnvStep h₁ b) (fnvStep h₂ b) (fnvStep_lt h₁ b) (fnvStep_lt h₂ b) he
    exact fnvStep_inj_left h₁ h₂ b hh₁ hh₂ hb this

theorem foldl_fnvStep_set_ne (l : List Nat) :
    ∀ (i b h : Nat), h < 2 ^ 32 → (∀ x ∈ l, x < 2 ^ 32) → b < 2 ^ 32 →
      ∀ (hi : i < l.length), b ≠ l.get ⟨i, hi⟩ →
      (l.set i b).foldl fnvStep h ≠ l.foldl fnvStep h := by
  induction l with
  | nil =>
    intro i b h _ _ _ hi
    exact absurd hi (by simp)
  | cons c rest ih =>
    intro i b h hh hl hb hi hne
    cases i with
    | zero =>
      intro habs
      simp only [List.set_cons_zero, List.foldl_cons] at habs
      have hc : c < 2 ^ 32 := hl c (List.mem_cons_self c rest)
      have := foldl_fnvStep_inj rest (fun x hx => hl x (List.mem_cons_of_mem c hx))
        (fnvStep h b) (fnvStep h c) (fnvStep_lt h b) (fnvStep_lt h c) habs
      exact hne (fnvStep_inj_right h b c hh hb hc this)
    | succ j =>
      intro habs
      simp only [List.set_cons_succ, List.foldl_cons] at habs
      have hj : j < rest.length := by simpa using hi
      have hne' : b ≠ rest.get ⟨j, hj⟩ := by
        simpa using hne
      exact ih j b (fnvStep h c) (fnvStep_lt h c)
        (fun x hx => hl x (List.mem_cons_of_mem c hx)) hb hj hne' habs

theorem fnv1a_set_ne (pre l post : List Nat) (i b : Nat)
    (_hpre : ∀ x ∈ pre, x < 2 ^ 32) (hl : ∀ x ∈ l, x < 2 ^ 32)
    (hpost : ∀ x ∈ post, x < 2 ^ 32) (hb : b < 2 ^ 32) (hi : i < l.length)
    (hne : b ≠ l.get ⟨i, hi⟩) :
    fnv1a (pre ++ (l.set i b ++ post)) ≠ fnv1a (pre ++ (l ++ post)) := by
  unfold fnv1a
  rw [List.foldl_append, List.foldl_append, List.foldl_append, List.foldl_append]
  intro habs
  have h0lt : pre.foldl fnvStep fnvOffset < 2 ^ 32 :=
    foldl_fnvStep_lt pre fnvOffset (by norm_num [fnvOffset])
  have hsetlt : ∀ x ∈ l.set i b, x < 2 ^ 32 := by
    intro x hx
    rcases List.mem_or_eq_of_mem_set hx with hx' | hx'
    · exact hl x hx'
    · rw [hx']
      exact hb
  have hmid := foldl_fnvStep_inj post hpost
    ((l.set i b).foldl fnvStep (pre.foldl fnvStep fnvOffset))
    (l.foldl fnvStep (pre.foldl fnvStep fnvOffset))
    (foldl_fnvStep_lt _ _ h0lt) (foldl_fnvStep_lt _ _ h0lt) habs
  exact foldl_fnvStep_set_ne l i b (pre.foldl fnvStep fnvOffset) h0lt hl hb hi hne hmid

theorem charCodes_append (s t : String) : charCodes (s ++ t) = charCodes s ++ charCodes t := by
  cases s with
  | mk a =>
    cases t with
    | mk b =>
      show ((a ++ b).map Char.toNat) = a.map Char.toNat ++ b.map Char.toNat
      exact List.map_append Char.toNat a b

theorem charCodes_lt (s : String) : ∀ x ∈ charCodes s, x < 2 ^ 32 := by
  intro x hx
  rcases List.mem_map.mp hx with ⟨c, _, hc⟩
  rw [← hc]
  show c.toNat < 2 ^ 32
  have h1 := UInt32.toNat_lt_size c.val
  have h2 : UInt32.size = 2 ^ 32 := by norm_num [UInt32.size]
  rw [h2] at h1
  exact h1

theorem encodeCheckpointStr_zero (claims : PreparedClaims) :
    encodeCheckpointStr 0 claims =
      "\x7b\"checksum\":0,\"v1\":" ++ (encodeV1Str claims ++ "\x7d") := by
  unfold encodeCheckpointStr
  have hpre : ("\x7b\"checksum\":" ++ toString (0 : Nat) ++ ",\"v1\":" : String) =
      "\x7b\"checksum\":0,\"v1\":" := rfl
  rw [hpre, String.append_assoc]

theorem encodeCheckpoint_zero (claims : PreparedClaims) :
    encodeCheckpoint 0 claims =
      charCodes "\x7b\"checksum\":0,\"v1\":" ++
        (charCodes (encodeV1Str claims) ++ charCodes "\x7d") := by
  unfold encodeCheckpoint
  rw [encodeCheckpointStr_zero, charCodes_append, charCodes_append]

/-- C5.  Checkpoint serialization round-trips with its checksum:
`MarshalCheckpoint` computes the checksum over the zero-checksum encoding
and re-encodes with the checksum populated, so verifying the marshalled
checkpoint (the value `json.Unmarshal` recovers from the serialized bytes)
succeeds; the serialized bytes are the encoding with the checksum field
populated; `VerifyChecksum` leaves the stored checksum unchanged; and for a
checkpoint carrying the stored checksum whose encoded payload differs from
the original's in exactly one byte, `VerifyChecksum` fails. -/
theorem c5_checkpoint_checksum (cp cp' : CheckpointM) (i b : Nat)
    (hck : cp'.checksum = (MarshalCheckpoint cp).2.checksum)
    (hi : i < (charCodes (encodeV1Str cp.preparedClaims)).length)
    (hb : b < 2 ^ 32)
    (hne : b ≠ (charCodes (encodeV1Str cp.preparedClaims)).get ⟨i, hi⟩)
    (hmut : charCodes (encodeV1Str cp'.preparedClaims) =
      (charCodes (encodeV1Str cp.preparedClaims)).set i b) :
    (VerifyChecksum (MarshalCheckpoint cp).2).1 = true ∧
    (MarshalCheckpoint cp).1 =
      encodeCheckpoint (MarshalCheckpoint cp).2.checksum
        (MarshalCheckpoint cp).2.preparedClaims ∧
    (MarshalCheckpoint cp).2.checksum = fnv1a (encodeCheckpoint 0 cp.preparedClaims) ∧
    (∀ x : CheckpointM, (VerifyChecksum x).2 = x) ∧
    (VerifyChecksum cp').1 = false := by
  have hmkey : (MarshalCheckpoint cp).2.checksum =
      fnv1a (encodeCheckpoint 0 cp.preparedClaims) := by
    simp only [MarshalCheckpoint]
  refine ⟨?_, rfl, hmkey, fun x => rfl, ?_⟩
  · simp only [VerifyChecksum, MarshalCheckpoint, beq_self_eq_true]
  · have hv : (VerifyChecksum cp').1 =
        (fnv1a (encodeCheckpoint 0 cp'.preparedClaims) == cp'.checksum) := by
      simp only [VerifyChecksum]
    rw [hv, hck, hmkey, beq_eq_false_iff_ne]
    rw [encodeCheckpoint_zero, encodeCheckpoint_zero, hmut]
    exact fnv1a_set_ne (charCodes "\x7b\"checksum\":0,\"v1\":")
      (charCodes (encodeV1Str cp.preparedClaims)) (charCodes "\x7d") i b
      (charCodes_lt _) (charCodes_lt _) (charCodes_lt _) hb hi hne

/-- C5 witness: a checkpoint with a populated claims map verifies after
marshalling, and flipping the one byte of its payload that holds the claim
UID (`a` to `b`) makes verification fail. -/
theorem c5_witness :
    (VerifyChecksum (MarshalCheckpoint ⟨7, [("a", [])]⟩).2).1 = true ∧
    (VerifyChecksum (⟨(MarshalCheckpoint ⟨7, [("a", [])]⟩).2.checksum,
      [("b", [])]⟩ : CheckpointM)).1 = false := by
  have h := c5_checkpoint_checksum ⟨7, [("a", [])]⟩
    ⟨(MarshalCheckpoint ⟨7, [("a", [])]⟩).2.checksum, [("b", [])]⟩ 20 98
    rfl (by decide) (by decide) (by decide) (by decide)
  exact ⟨h.1, h.2.2.2.2⟩

end SriovDra
